import Mathlib

/-!
# CFIR: windowed-sinc FIR designer and circular-buffer convolver

A shallow embedding of `includes/CFIR.hpp` and `src/CFIR.cpp`.

Modelling conventions

* `float` values are elements of a type `α`.  The convolver only needs `0`, `+` and `*`
  on `α` (no algebraic law is assumed, so the order of accumulation is kept); the designer
  and the window shaper work over a linearly ordered field, with `sinf`, `cosf` and the
  constant `mPI` supplied by a `MathEnv`.
* `int` fields are `Int`; `uint32_t` locals are `Nat` reduced modulo `2 ^ 32` where the
  source computes in unsigned arithmetic.
* a buffer pointer is `Option (List α)`: `none` is a pointer without a usable buffer.
* undefined behaviour (out-of-range or null access, integer division by zero, signed
  overflow) is the result `none`.
* a `float` division never stops the program, so it is the total division of the field; the
  value it gives for a zero divisor carries no meaning and no statement below depends on it.
  The functions that divide are given a second time with every division guarded
  (`sincChecked`, `windowHammingChecked`, ...), a zero divisor being the fault
  `ZERO_DIVISOR`.
* statements over exact real arithmetic take a `MathEnv ℝ` with `mPI = π`, `sinf = sin` and
  `cosf = cos`.
* the tap count is an `int`: statements about `N` taps carry the bound `N ≤ 2147483647`.
* the unqualified `abs` of `windowTriangle` is `int abs(int)`: the source includes `<cmath>`
  and `<string.h>` only, which leaves the floating-point overloads in namespace `std`.
-/

namespace CFIR

/-- The codes of `enum ResultCodes`. -/
inductive ResultCodes where
  | RESULT_SUCCESS
  | MEMORY_ALLOCATION_ERROR
  deriving DecidableEq, Repr

/-- The shapes of `enum filterType`. -/
inductive filterType where
  | LOWPASS_FILTER
  | HIGHPASS_FILTER
  | BANDPASS_FILTER
  | BANDSTOP_FILTER
  deriving DecidableEq, Repr

/-- The windows of `enum windowType`. -/
inductive windowType where
  | HAMMING
  | TRIANGLE
  | BLACKMAN
  deriving DecidableEq, Repr

/-- The private data members of `class CFIR`. -/
structure State (α : Type) where
  p_Coefficients : Option (List α)
  p_Samples : Option (List α)
  p_Window : Option (List α)
  p_MinFrequency : Int
  p_MaxFrequency : Int
  p_Index : Int
  p_Taps : Int
  p_FilterType : filterType
  p_WindowType : windowType

/-- Conversion of an `int` to `uint32_t`. -/
def toU32 (z : Int) : Nat := (z % 4294967296).toNat

/-- Largest value of `int`. -/
def INT_MAX : Int := 2147483647

/-- Checked store `buf[i] = v` through an `int` index. -/
def store {α : Type} (buf : List α) (i : Int) (v : α) : Option (List α) :=
  if 0 ≤ i ∧ i.toNat < buf.length then some (buf.set i.toNat v) else none

/-- Index `(p_Index + currentIdx + off) % p_Taps` of the sample read by one
multiply-accumulate statement, computed in `uint32_t`. -/
def sampleIndex {α : Type} (s : State α) (currentIdx off : Nat) : Nat :=
  (toU32 s.p_Index + currentIdx + off) % 4294967296 % toU32 s.p_Taps

/-- Index `currentIdx + off` of the coefficient read by one multiply-accumulate statement. -/
def coeffIndex (currentIdx off : Nat) : Nat := (currentIdx + off) % 4294967296

/-- One statement
`output_sample += p_Samples[(p_Index + currentIdx + off) % p_Taps] * p_Coefficients[currentIdx + off]`. -/
def mac {α : Type} [Add α] [Mul α] (s : State α) (currentIdx off : Nat) (output_sample : α) :
    Option α :=
  match s.p_Samples, s.p_Coefficients with
  | some samples, some coeffs =>
    if toU32 s.p_Taps = 0 then none
    else
      match samples[sampleIndex s currentIdx off]?, coeffs[coeffIndex currentIdx off]? with
      | some x, some c => some (output_sample + x * c)
      | _, _ => none
  | _, _ => none

/-- Body of `while (len > 31)`: thirty-two multiply-accumulate statements, each one fed the
accumulator left by the statement before it. -/
def block32 {α : Type} [Add α] [Mul α] (s : State α) (currentIdx : Nat) (output_sample : α) :
    Option α :=
  (mac s currentIdx 0 output_sample)
    |>.bind (mac s currentIdx 1)
    |>.bind (mac s currentIdx 2)
    |>.bind (mac s currentIdx 3)
    |>.bind (mac s currentIdx 4)
    |>.bind (mac s currentIdx 5)
    |>.bind (mac s currentIdx 6)
    |>.bind (mac s currentIdx 7)
    |>.bind (mac s currentIdx 8)
    |>.bind (mac s currentIdx 9)
    |>.bind (mac s currentIdx 10)
    |>.bind (mac s currentIdx 11)
    |>.bind (mac s currentIdx 12)
    |>.bind (mac s currentIdx 13)
    |>.bind (mac s currentIdx 14)
    |>.bind (mac s currentIdx 15)
    |>.bind (mac s currentIdx 16)
    |>.bind (mac s currentIdx 17)
    |>.bind (mac s currentIdx 18)
    |>.bind (mac s currentIdx 19)
    |>.bind (mac s currentIdx 20)
    |>.bind (mac s currentIdx 21)
    |>.bind (mac s currentIdx 22)
    |>.bind (mac s currentIdx 23)
    |>.bind (mac s currentIdx 24)
    |>.bind (mac s currentIdx 25)
    |>.bind (mac s currentIdx 26)
    |>.bind (mac s currentIdx 27)
    |>.bind (mac s currentIdx 28)
    |>.bind (mac s currentIdx 29)
    |>.bind (mac s currentIdx 30)
    |>.bind (mac s currentIdx 31)

/-- Body of `while (len > 3)`: four multiply-accumulate statements. -/
def block4 {α : Type} [Add α] [Mul α] (s : State α) (currentIdx : Nat) (output_sample : α) :
    Option α :=
  (mac s currentIdx 0 output_sample)
    |>.bind (mac s currentIdx 1)
    |>.bind (mac s currentIdx 2)
    |>.bind (mac s currentIdx 3)

/-- The loop `while (len > 31)`; returns `(len, currentIdx, output_sample)` at exit. -/
def loop32 {α : Type} [Add α] [Mul α] (s : State α) (len currentIdx : Nat) (output_sample : α) :
    Option (Nat × Nat × α) :=
  if 31 < len then
    (block32 s currentIdx output_sample).bind fun out =>
      loop32 s (len - 32) ((currentIdx + 32) % 4294967296) out
  else some (len, currentIdx, output_sample)
termination_by len
decreasing_by omega

/-- The loop `while (len > 3)`. -/
def loop4 {α : Type} [Add α] [Mul α] (s : State α) (len currentIdx : Nat) (output_sample : α) :
    Option (Nat × Nat × α) :=
  if 3 < len then
    (block4 s currentIdx output_sample).bind fun out =>
      loop4 s (len - 4) ((currentIdx + 4) % 4294967296) out
  else some (len, currentIdx, output_sample)
termination_by len
decreasing_by omega

/-- The loop `while (len > 0)`. -/
def loop1 {α : Type} [Add α] [Mul α] (s : State α) (len currentIdx : Nat) (output_sample : α) :
    Option (Nat × Nat × α) :=
  if 0 < len then
    (mac s currentIdx 0 output_sample).bind fun out =>
      loop1 s (len - 1) ((currentIdx + 1) % 4294967296) out
  else some (len, currentIdx, output_sample)
termination_by len
decreasing_by omega

/-- The statement `p_Index = (p_Index + 1) % p_Taps` in `int` arithmetic. -/
def nextIndex (p_Index p_Taps : Int) : Option Int :=
  if p_Taps = 0 ∨ INT_MAX < p_Index + 1 then none
  else some (Int.tmod (p_Index + 1) p_Taps)

/-- `CFIR::filter`: returns the output sample and the state after the call. -/
def filter {α : Type} [Zero α] [Add α] [Mul α] (s : State α) (new_sample : α) :
    Option (α × State α) :=
  match s.p_Samples with
  | none => none
  | some samples =>
    match store samples s.p_Index new_sample with
    | none => none
    | some samples1 =>
      let s1 : State α := { s with p_Samples := some samples1 }
      let loops :=
        (loop32 s1 (toU32 s1.p_Taps) 0 0).bind fun r =>
          (loop4 s1 r.1 r.2.1 r.2.2).bind fun r => loop1 s1 r.1 r.2.1 r.2.2
      match loops with
      | none => none
      | some (_, _, output_sample) =>
        match nextIndex s1.p_Index s1.p_Taps with
        | none => none
        | some idx => some (output_sample, { s1 with p_Index := idx })

/-- Feeding a stream of samples through `filter`, one call per sample, in order. -/
def filterAll {α : Type} [Zero α] [Add α] [Mul α] (s : State α) :
    List α → Option (List α × State α)
  | [] => some ([], s)
  | x :: xs =>
    match filter s x with
    | none => none
    | some (y, s1) =>
      match filterAll s1 xs with
      | none => none
      | some (ys, s2) => some (y :: ys, s2)

/-- A plain single loop: `count` multiply-accumulate statements at the consecutive positions
`start`, `start + 1`, ... -/
def macSeq {α : Type} [Add α] [Mul α] (s : State α) : Nat → Nat → α → Option α
  | 0, _, out => some out
  | count + 1, start, out => (mac s start 0 out).bind (macSeq s count (start + 1))

/-- The sum of the specification, `Σ_{k=0}^{N-1} history[(cursor + k) mod N] · coeff[k]`,
accumulated left to right from `0` by one loop over `k = 0, ..., N-1`. -/
def convolve {α : Type} [Zero α] [Add α] [Mul α] (N cursor : Nat) (history coeff : List α) : α :=
  (List.range N).foldl
    (fun acc k => acc + history.getD ((cursor + k) % N) 0 * coeff.getD k 0) 0

/-- A Ready filter: `N` taps, cursor `c`, history `h` and coefficients `coeff`, both buffers
of length `N`. -/
structure Ready {α : Type} (s : State α) (N c : Nat) (h coeff : List α) : Prop where
  taps : s.p_Taps = (N : Int)
  index : s.p_Index = (c : Int)
  samples : s.p_Samples = some h
  coeffs : s.p_Coefficients = some coeff
  hlen : h.length = N
  clen : coeff.length = N

/-- The state right after a successful `init` with coefficients `coeff`, as far as the
convolver reads it: zero history, cursor `0`. -/
def readyState {α : Type} [Zero α] (coeff : List α) (ft : filterType) (wt : windowType)
    (fmin fmax : Int) : State α :=
  { p_Coefficients := some coeff
    p_Samples := some (List.replicate coeff.length 0)
    p_Window := none
    p_MinFrequency := fmin
    p_MaxFrequency := fmax
    p_Index := 0
    p_Taps := (coeff.length : Int)
    p_FilterType := ft
    p_WindowType := wt }

/-! ## Construction and initialisation -/

/-- What `<cmath>` and the file-level constant supply: `mPI` (the `float` nearest to π),
`sinf` and `cosf`. -/
structure MathEnv (α : Type) where
  mPI : α
  sinf : α → α
  cosf : α → α

/-- The outcome of each `malloc` call made during `init`: whether the buffers for
`p_Coefficients`, `p_Samples`, `p_Window` and the designer's index array `n` are obtained,
and what fresh memory contains before it is cleared. -/
structure Allocs (α : Type) where
  coefficients : Bool
  samples : Bool
  window : Bool
  n : Bool
  junk : α
  junkInt : Int

/-- Conversion of a `float` to `int`: truncation toward zero, undefined when the truncated
value is not an `int`. -/
def floatToInt {α : Type} [LinearOrderedField α] [FloorRing α] (x : α) : Option Int :=
  let t : Int := if 0 ≤ x then Int.floor x else Int.ceil x
  if -2147483648 ≤ t ∧ t ≤ INT_MAX then some t else none

/-- `CFIR::CFIR`: null buffers, cursor `0`, and the two cut-off frequencies converted to the
`int` members `p_MinFrequency` and `p_MaxFrequency`. -/
def new {α : Type} [LinearOrderedField α] [FloorRing α] (taps : Int) (type : filterType)
    (window : windowType) (minFrequency maxFrequency : α) : Option (State α) :=
  match floatToInt minFrequency, floatToInt maxFrequency with
  | some fmin, some fmax =>
    some
      { p_Coefficients := none
        p_Samples := none
        p_Window := none
        p_MinFrequency := fmin
        p_MaxFrequency := fmax
        p_Index := 0
        p_Taps := taps
        p_FilterType := type
        p_WindowType := window }
  | _, _ => none

/-- Number of 4-byte elements in a block of `p_Taps * sizeof(float)` bytes, the product taken
in a 64-bit `size_t`. -/
def elemCount (taps : Int) : Nat := ((taps * 4) % 18446744073709551616).toNat / 4

/-- `malloc` of `count` elements: a fresh block of unspecified content, or a null pointer. -/
def malloc {β : Type} (ok : Bool) (count : Nat) (junk : β) : Option (List β) :=
  if ok then some (List.replicate count junk) else none

/-- `memset(buf, 0, count * 4)`: the first `count` elements become zero. -/
def memsetZero {β : Type} [Zero β] (buf : List β) (count : Nat) : Option (List β) :=
  if count ≤ buf.length then some (List.replicate count 0 ++ buf.drop count) else none

/-- Checked load `buf[i]` through an `int` index. -/
def load {β : Type} (buf : List β) (i : Int) : Option β :=
  if 0 ≤ i then buf[i.toNat]? else none

/-- The loop `for (int i = 0; i < bound; i++) body`, threading the state `σ`. -/
def forLoop {σ : Type} (bound : Int) (body : Int → σ → Option σ) (init : σ) : Option σ :=
  (List.range bound.toNat).foldlM (fun st (i : Nat) => body (i : Int) st) init

/-- The function `sinc` of the source. -/
def sinc {α : Type} [LinearOrderedField α] (m : MathEnv α) (x : α) : α :=
  if x = 0 then 1 else m.sinf (m.mPI * x) / (m.mPI * x)

/-- The common prologue of the four designers: allocate the index array `n`, record the
result code, clear `n` and fill it with `n[i] = i - int(p_Taps / 2)`.  Clearing through a
null pointer is undefined. -/
def centeredIndices {α : Type} (a : Allocs α) (s : State α) : Option (ResultCodes × List Int) :=
  let n := malloc a.n (elemCount s.p_Taps) a.junkInt
  let result :=
    if n.isNone then ResultCodes.MEMORY_ALLOCATION_ERROR else ResultCodes.RESULT_SUCCESS
  match n with
  | none => none
  | some n =>
    (memsetZero n (elemCount s.p_Taps)).bind fun n =>
      (forLoop s.p_Taps (fun i n => store n i (i - Int.tdiv s.p_Taps 2)) n).bind fun n =>
        some (result, n)

/-- The second loop of a designer: `p_Coefficients[i] = tap(n[i])` for every `i`. -/
def writeTaps {α : Type} (s : State α) (n : List Int) (tap : Int → α) : Option (State α) :=
  s.p_Coefficients.bind fun coeffs =>
    (forLoop s.p_Taps (fun i c => (load n i).bind fun ni => store c i (tap ni)) coeffs).bind
      fun coeffs => some { s with p_Coefficients := some coeffs }

/-- `CFIR::lowPassCoefficients`. -/
def lowPassCoefficients {α : Type} [LinearOrderedField α] (m : MathEnv α) (a : Allocs α)
    (s : State α) (frequency : α) : Option (ResultCodes × State α) :=
  (centeredIndices a s).bind fun r =>
    (writeTaps s r.2 fun ni => 2 * frequency * sinc m (2 * frequency * (ni : α))).bind fun s =>
      some (r.1, s)

/-- `CFIR::highPassCoefficients`. -/
def highPassCoefficients {α : Type} [LinearOrderedField α] (m : MathEnv α) (a : Allocs α)
    (s : State α) (frequency : α) : Option (ResultCodes × State α) :=
  (centeredIndices a s).bind fun r =>
    (writeTaps s r.2 fun ni =>
      sinc m (ni : α) - 2 * frequency * sinc m (2 * frequency * (ni : α))).bind fun s =>
      some (r.1, s)

/-- `CFIR::bandPassCoefficients`. -/
def bandPassCoefficients {α : Type} [LinearOrderedField α] (m : MathEnv α) (a : Allocs α)
    (s : State α) (minFrequency maxFrequency : α) : Option (ResultCodes × State α) :=
  (centeredIndices a s).bind fun r =>
    (writeTaps s r.2 fun ni =>
      2 * minFrequency * sinc m (2 * minFrequency * (ni : α))
        - 2 * maxFrequency * sinc m (2 * maxFrequency * (ni : α))).bind fun s =>
      some (r.1, s)

/-- `CFIR::bandStopCoefficients`. -/
def bandStopCoefficients {α : Type} [LinearOrderedField α] (m : MathEnv α) (a : Allocs α)
    (s : State α) (minFrequency maxFrequency : α) : Option (ResultCodes × State α) :=
  (centeredIndices a s).bind fun r =>
    (writeTaps s r.2 fun ni =>
      2 * minFrequency * sinc m (2 * minFrequency * (ni : α))
        - 2 * maxFrequency * sinc m (2 * maxFrequency * (ni : α)) + sinc m (ni : α)).bind fun s =>
      some (r.1, s)

/-- The loop of a window shaper whose weight is a `float` expression: `p_Window[i] = w(i)`
for every `i`. -/
def writeWindow {α : Type} (s : State α) (w : Int → α) : Option (State α) :=
  s.p_Window.bind fun win =>
    (forLoop s.p_Taps (fun i b => store b i (w i)) win).bind fun win =>
      some { s with p_Window := some win }

/-- `CFIR::windowHamming`. -/
def windowHamming {α : Type} [LinearOrderedField α] (m : MathEnv α) (s : State α) :
    Option (State α) :=
  let alpha : α := 0.54
  let beta : α := 0.46
  writeWindow s fun i => alpha - beta * m.cosf (2 * m.mPI * (i : α) / ((s.p_Taps - 1 : Int) : α))

/-- Truncation toward zero: the value a `float` takes when converted to `int`. -/
def truncToInt {α : Type} [LinearOrderedField α] [FloorRing α] (x : α) : Int :=
  if 0 ≤ x then Int.floor x else Int.ceil x

/-- The library function `int abs(int)`, undefined at `INT_MIN`. -/
def intAbs (t : Int) : Option Int :=
  if t = -2147483648 then none else some (t.natAbs : Int)

/-- `CFIR::windowTriangle`.  The file includes only `<cmath>` and `<string.h>`, so the
unqualified call `abs(...)` is the C function `int abs(int)`: the `float` quotient is
converted to `int` (truncation toward zero), the absolute value and the subtraction
`1 - abs(...)` are taken in `int`, and the result is converted to `float` when stored. -/
def windowTriangle {α : Type} [LinearOrderedField α] [FloorRing α] (s : State α) :
    Option (State α) :=
  let l : α := (s.p_Taps : α)
  s.p_Window.bind fun win =>
    (forLoop s.p_Taps
      (fun i b =>
        (floatToInt (((i : α) - ((s.p_Taps - 1 : Int) : α) / 2) / (l / 2))).bind fun t =>
          (intAbs t).bind fun r => store b i ((1 - r : Int) : α))
      win).bind fun win => some { s with p_Window := some win }

/-- `CFIR::windowBlackman`. -/
def windowBlackman {α : Type} [LinearOrderedField α] (m : MathEnv α) (s : State α) :
    Option (State α) :=
  let alpha0 : α := 0.42
  let alpha1 : α := 0.5
  let alpha2 : α := 0.08
  writeWindow s fun i =>
    alpha0 - alpha1 * m.cosf (2 * m.mPI * (i : α) / ((s.p_Taps - 1 : Int) : α))
      - alpha2 * m.cosf (4 * m.mPI * (i : α) / ((s.p_Taps - 1 : Int) : α))

/-- The `switch (p_FilterType)` of `init`. -/
def design {α : Type} [LinearOrderedField α] (m : MathEnv α) (a : Allocs α) (s : State α) :
    Option (ResultCodes × State α) :=
  match s.p_FilterType with
  | filterType.LOWPASS_FILTER => lowPassCoefficients m a s (s.p_MinFrequency : α)
  | filterType.HIGHPASS_FILTER => highPassCoefficients m a s (s.p_MinFrequency : α)
  | filterType.BANDPASS_FILTER =>
    bandPassCoefficients m a s (s.p_MinFrequency : α) (s.p_MaxFrequency : α)
  | filterType.BANDSTOP_FILTER =>
    bandStopCoefficients m a s (s.p_MinFrequency : α) (s.p_MaxFrequency : α)

/-- The `switch (p_WindowType)` of `init`. -/
def shape {α : Type} [LinearOrderedField α] [FloorRing α] (m : MathEnv α) (s : State α) :
    Option (State α) :=
  match s.p_WindowType with
  | windowType.HAMMING => windowHamming m s
  | windowType.TRIANGLE => windowTriangle s
  | windowType.BLACKMAN => windowBlackman m s

/-- The last loop of `init`, `p_Coefficients[n] = p_Coefficients[n] * p_Window[n]`, followed by
`free(p_Window)`. -/
def applyWindow {α : Type} [Mul α] (s : State α) : Option (State α) :=
  s.p_Coefficients.bind fun coeffs =>
    s.p_Window.bind fun win =>
      (forLoop s.p_Taps
        (fun n c => (load c n).bind fun cn => (load win n).bind fun wn => store c n (cn * wn))
        coeffs).bind fun coeffs =>
        some { s with p_Coefficients := some coeffs, p_Window := none }

/-- `CFIR::init`: the result code and the state after the call. -/
def init {α : Type} [LinearOrderedField α] [FloorRing α] (m : MathEnv α) (a : Allocs α)
    (s : State α) :
    Option (ResultCodes × State α) :=
  match malloc a.coefficients (elemCount s.p_Taps) a.junk with
  | none => some (ResultCodes.MEMORY_ALLOCATION_ERROR, { s with p_Coefficients := none })
  | some coeffs =>
    match malloc a.samples (elemCount s.p_Taps) a.junk with
    | none =>
      some (ResultCodes.MEMORY_ALLOCATION_ERROR,
        { s with p_Coefficients := some coeffs, p_Samples := none })
    | some samples =>
      match malloc a.window (elemCount s.p_Taps) a.junk with
      | none =>
        some (ResultCodes.MEMORY_ALLOCATION_ERROR,
          { s with p_Coefficients := some coeffs, p_Samples := some samples, p_Window := none })
      | some win =>
        (memsetZero coeffs (elemCount s.p_Taps)).bind fun coeffs =>
          (memsetZero samples (elemCount s.p_Taps)).bind fun samples =>
            (memsetZero win (elemCount s.p_Taps)).bind fun win =>
              let s1 : State α :=
                { s with p_Coefficients := some coeffs, p_Samples := some samples,
                         p_Window := some win }
              (design m a s1).bind fun r =>
                if r.1 ≠ ResultCodes.RESULT_SUCCESS then some r
                else
                  (shape m r.2).bind fun s2 =>
                    (applyWindow s2).bind fun s3 => some (r.1, s3)

/-- `CFIR::getCoefficients`. -/
def getCoefficients {α : Type} (s : State α) : Option (List α) := s.p_Coefficients

/-- The raw tap a designer writes for the centred index `ni`, by filter type, with the
frequencies as the designers receive them from `init`. -/
def tapValue {α : Type} [LinearOrderedField α] (m : MathEnv α) (type : filterType)
    (minFrequency maxFrequency : α) (ni : Int) : α :=
  match type with
  | filterType.LOWPASS_FILTER => 2 * minFrequency * sinc m (2 * minFrequency * (ni : α))
  | filterType.HIGHPASS_FILTER =>
    sinc m (ni : α) - 2 * minFrequency * sinc m (2 * minFrequency * (ni : α))
  | filterType.BANDPASS_FILTER =>
    2 * minFrequency * sinc m (2 * minFrequency * (ni : α))
      - 2 * maxFrequency * sinc m (2 * maxFrequency * (ni : α))
  | filterType.BANDSTOP_FILTER =>
    2 * minFrequency * sinc m (2 * minFrequency * (ni : α))
      - 2 * maxFrequency * sinc m (2 * maxFrequency * (ni : α)) + sinc m (ni : α)

/-- The weight a window shaper writes at position `i`, by window type; for the Triangle
window the absolute value and the subtraction are taken in `int`, as `windowTriangle` does. -/
def weightValue {α : Type} [LinearOrderedField α] [FloorRing α] (m : MathEnv α)
    (window : windowType) (taps : Int) (i : Int) : α :=
  match window with
  | windowType.HAMMING => 0.54 - 0.46 * m.cosf (2 * m.mPI * (i : α) / ((taps - 1 : Int) : α))
  | windowType.TRIANGLE =>
    ((1 - ((truncToInt (((i : α) - ((taps - 1 : Int) : α) / 2) / ((taps : α) / 2))).natAbs : Int)
      : Int) : α)
  | windowType.BLACKMAN =>
    0.42 - 0.5 * m.cosf (2 * m.mPI * (i : α) / ((taps - 1 : Int) : α))
      - 0.08 * m.cosf (4 * m.mPI * (i : α) / ((taps - 1 : Int) : α))

/-! ## The history of a stream, for stating what the convolver holds -/

/-- What one call of `filter` does to the pair (history, cursor): store the sample at the
cursor, then advance the cursor modulo `N`. -/
def advance {α : Type} (N : Nat) (p : List α × Nat) (x : α) : List α × Nat :=
  (p.1.set p.2 x, (p.2 + 1) % N)

/-- The pair (history, cursor) after a stream of samples. -/
def track {α : Type} (N : Nat) (p : List α × Nat) (xs : List α) : List α × Nat :=
  xs.foldl (advance N) p

/-- The outputs of the plain sum along a stream of samples. -/
def outputs {α : Type} [Zero α] [Add α] [Mul α] (N : Nat) (coeff : List α) :
    List α × Nat → List α → List α
  | _, [] => []
  | p, x :: xs => convolve N p.2 (p.1.set p.2 x) coeff :: outputs N coeff (advance N p x) xs

/-- The sample `x_u` of a stream, taken as `0` for `u < 0`. -/
def sampleAt {α : Type} [Zero α] (xs : List α) (u : Int) : α :=
  if u < 0 then 0 else xs.getD u.toNat 0

/-! ## The same functions with every division guarded -/

/-- What stops a guarded run: a division whose divisor is zero, an access outside a buffer,
or an integer conversion or `abs` whose result is not an `int`. -/
inductive Fault where
  | ZERO_DIVISOR
  | BAD_ACCESS
  | BAD_CONVERSION
  deriving DecidableEq, Repr

/-- Guarded division `x / y`. -/
def divChecked {α : Type} [LinearOrderedField α] (x y : α) : Except Fault α :=
  if y = 0 then Except.error Fault.ZERO_DIVISOR else Except.ok (x / y)

/-- The function `sinc` of the source with its division guarded. -/
def sincChecked {α : Type} [LinearOrderedField α] (m : MathEnv α) (x : α) : Except Fault α :=
  if x = 0 then Except.ok 1 else divChecked (m.sinf (m.mPI * x)) (m.mPI * x)

/-- An unguarded result seen as a guarded one: no result is a bad access. -/
def liftAccess {β : Type} : Option β → Except Fault β
  | some b => Except.ok b
  | none => Except.error Fault.BAD_ACCESS

/-- Checked store `buf[i] = v`, an access outside the buffer being a fault. -/
def storeChecked {α : Type} (buf : List α) (i : Int) (v : α) : Except Fault (List α) :=
  liftAccess (store buf i v)

/-- The loop of a window shaper when computing the weight can fault: `p_Window[i] = w(i)` for
every `i`, stopping at the first fault. -/
def writeWindowChecked {α : Type} (s : State α) (w : Int → Except Fault α) :
    Except Fault (State α) :=
  match s.p_Window with
  | none => Except.error Fault.BAD_ACCESS
  | some win =>
    ((List.range s.p_Taps.toNat).foldlM
        (fun b (i : Nat) => (w (i : Int)).bind fun v => storeChecked b (i : Int) v) win).bind
      fun win => Except.ok { s with p_Window := some win }

/-- `CFIR::windowHamming` with the division by `p_Taps - 1` guarded. -/
def windowHammingChecked {α : Type} [LinearOrderedField α] (m : MathEnv α) (s : State α) :
    Except Fault (State α) :=
  let alpha : α := 0.54
  let beta : α := 0.46
  writeWindowChecked s fun i =>
    (divChecked (2 * m.mPI * (i : α)) ((s.p_Taps - 1 : Int) : α)).bind fun q =>
      Except.ok (alpha - beta * m.cosf q)

/-- An integer conversion or `abs` seen as a guarded step: no result is a bad conversion. -/
def liftConversion {β : Type} : Option β → Except Fault β
  | some b => Except.ok b
  | none => Except.error Fault.BAD_CONVERSION

/-- `CFIR::windowTriangle` with its three divisions guarded; the quotient then goes through
the conversion to `int` and `int abs(int)` as in `windowTriangle`. -/
def windowTriangleChecked {α : Type} [LinearOrderedField α] [FloorRing α] (s : State α) :
    Except Fault (State α) :=
  let l : α := (s.p_Taps : α)
  writeWindowChecked s fun i =>
    (divChecked (((s.p_Taps - 1 : Int) : α)) 2).bind fun centre =>
      (divChecked l 2).bind fun half =>
        (divChecked ((i : α) - centre) half).bind fun q =>
          (liftConversion (floatToInt q)).bind fun t =>
            (liftConversion (intAbs t)).bind fun r => Except.ok ((1 - r : Int) : α)

/-- `CFIR::windowBlackman` with both divisions by `p_Taps - 1` guarded. -/
def windowBlackmanChecked {α : Type} [LinearOrderedField α] (m : MathEnv α) (s : State α) :
    Except Fault (State α) :=
  let alpha0 : α := 0.42
  let alpha1 : α := 0.5
  let alpha2 : α := 0.08
  writeWindowChecked s fun i =>
    (divChecked (2 * m.mPI * (i : α)) ((s.p_Taps - 1 : Int) : α)).bind fun q1 =>
      (divChecked (4 * m.mPI * (i : α)) ((s.p_Taps - 1 : Int) : α)).bind fun q2 =>
        Except.ok (alpha0 - alpha1 * m.cosf q1 - alpha2 * m.cosf q2)

/-! ## The unrolled loops against the plain loop -/

section Loops

variable {α : Type} [Add α] [Mul α]

theorem mac_off (s : State α) (k off : Nat) (out : α) :
    mac s k off out = mac s (k + off) 0 out := by
  simp [mac, sampleIndex, coeffIndex, Nat.add_assoc]

theorem macSeq_add (s : State α) (a b : Nat) :
    ∀ (k : Nat) (out : α), macSeq s (a + b) k out = (macSeq s a k out).bind (macSeq s b (k + a)) := by
  induction a with
  | zero => intro k out; simp [macSeq]
  | succ a ih =>
    intro k out
    have h1 : a + 1 + b = (a + b) + 1 := by omega
    rw [h1]
    simp only [macSeq]
    cases hm : mac s k 0 out with
    | none => simp
    | some o =>
      simp only [Option.some_bind]
      rw [ih]
      have h2 : k + 1 + a = k + (a + 1) := by omega
      rw [h2]

/-- The chain of `n` statements with offsets `0, ..., n-1` from one `currentIdx`. -/
theorem macSeq_offsets (s : State α) (k : Nat) (out : α) (n : Nat) :
    macSeq s (n + 1) k out = (macSeq s n k out).bind (mac s k n) := by
  rw [macSeq_add]
  congr 1
  funext o
  simp [macSeq, mac_off s k n]

theorem block4_eq (s : State α) (k : Nat) (out : α) : block4 s k out = macSeq s 4 k out := by
  simp only [macSeq_offsets]
  rfl

theorem block32_eq (s : State α) (k : Nat) (out : α) : block32 s k out = macSeq s 32 k out := by
  simp only [macSeq_offsets]
  rfl

theorem loop1_eq (s : State α) (T : Nat) (hT : T < 4294967296) :
    ∀ (len k : Nat) (out : α), k + len = T →
      loop1 s len k out = (macSeq s len k out).map (fun o => (0, T, o)) := by
  intro len
  induction len with
  | zero =>
    intro k out hk
    rw [loop1]
    simp [macSeq]
    omega
  | succ n ih =>
    intro k out hk
    rw [loop1]
    simp only [Nat.zero_lt_succ, if_true, macSeq, Nat.add_sub_cancel]
    have hk1 : (k + 1) % 4294967296 = k + 1 := Nat.mod_eq_of_lt (by omega)
    rw [hk1]
    cases hm : mac s k 0 out with
    | none => simp
    | some o => simpa using ih (k + 1) o (by omega)

theorem loop4_eq (s : State α) (T : Nat) (hT : T < 4294967296) :
    ∀ (len k : Nat) (out : α), k + len = T →
      loop4 s len k out =
        (macSeq s (len - len % 4) k out).map (fun o => (len % 4, k + (len - len % 4), o)) := by
  intro len
  induction len using Nat.strong_induction_on with
  | _ len ih =>
    intro k out hk
    rw [loop4]
    by_cases hl : 3 < len
    · simp only [hl, if_true]
      have hk4 : (k + 4) % 4294967296 = k + 4 := Nat.mod_eq_of_lt (by omega)
      have hsplit : len - len % 4 = 4 + ((len - 4) - (len - 4) % 4) := by omega
      rw [hk4, hsplit, macSeq_add, block4_eq]
      cases hm : macSeq s 4 k out with
      | none => simp
      | some o =>
        simp only [Option.some_bind]
        rw [ih (len - 4) (by omega) (k + 4) o (by omega)]
        have h1 : (len - 4) % 4 = len % 4 := by omega
        rw [h1, Nat.add_assoc]
    · simp only [hl, if_false]
      have h0 : len - len % 4 = 0 := by omega
      have h1 : len % 4 = len := by omega
      rw [h0, h1]
      simp [macSeq]

theorem loop32_eq (s : State α) (T : Nat) (hT : T < 4294967296) :
    ∀ (len k : Nat) (out : α), k + len = T →
      loop32 s len k out =
        (macSeq s (len - len % 32) k out).map (fun o => (len % 32, k + (len - len % 32), o)) := by
  intro len
  induction len using Nat.strong_induction_on with
  | _ len ih =>
    intro k out hk
    rw [loop32]
    by_cases hl : 31 < len
    · simp only [hl, if_true]
      have hk4 : (k + 32) % 4294967296 = k + 32 := Nat.mod_eq_of_lt (by omega)
      have hsplit : len - len % 32 = 32 + ((len - 32) - (len - 32) % 32) := by omega
      rw [hk4, hsplit, macSeq_add, block32_eq]
      cases hm : macSeq s 32 k out with
      | none => simp
      | some o =>
        simp only [Option.some_bind]
        rw [ih (len - 32) (by omega) (k + 32) o (by omega)]
        have h1 : (len - 32) % 32 = len % 32 := by omega
        rw [h1, Nat.add_assoc]
    · simp only [hl, if_false]
      have h0 : len - len % 32 = 0 := by omega
      have h1 : len % 32 = len := by omega
      rw [h0, h1]
      simp [macSeq]


theorem macSeq_add3 (s : State α) (a b c k : Nat) (out : α) :
    macSeq s (a + b + c) k out
      = ((macSeq s a k out).bind (macSeq s b (k + a))).bind (macSeq s c (k + a + b)) := by
  rw [macSeq_add s (a + b) c, macSeq_add s a b, Nat.add_assoc]

/-- The three loops of `filter`, run one after the other from `len = T`, `currentIdx = 0`,
perform the `T` statements of the plain loop. -/
theorem loops_eq (s : State α) (T : Nat) (hT : T < 4294967296) (out : α) :
    ((loop32 s T 0 out).bind fun r =>
        (loop4 s r.1 r.2.1 r.2.2).bind fun r => loop1 s r.1 r.2.1 r.2.2)
      = (macSeq s T 0 out).map (fun o => (0, T, o)) := by
  rw [loop32_eq s T hT T 0 out (by omega)]
  have hsplit : (T - T % 32) + (T % 32 - T % 32 % 4) + T % 32 % 4 = T := by omega
  have key := macSeq_add3 s (T - T % 32) (T % 32 - T % 32 % 4) (T % 32 % 4) 0 out
  rw [hsplit] at key
  rw [key]
  cases h32 : macSeq s (T - T % 32) 0 out with
  | none => simp
  | some o1 =>
    simp only [Option.map_some', Option.some_bind]
    rw [loop4_eq s T hT (T % 32) (0 + (T - T % 32)) o1 (by omega)]
    cases h4 : macSeq s (T % 32 - T % 32 % 4) (0 + (T - T % 32)) o1 with
    | none => simp
    | some o2 =>
      simp only [Option.map_some', Option.some_bind]
      rw [loop1_eq s T hT (T % 32 % 4) _ o2 (by omega)]

end Loops

/-! ## One call of `filter` on a Ready state -/

section FilterCall

theorem toU32_natCast (n : Nat) (h : n < 4294967296) : toU32 (n : Int) = n := by
  unfold toU32
  have : ((n : Int) % 4294967296) = (n : Int) := Int.emod_eq_of_lt (by omega) (by omega)
  rw [this]
  simp

variable {α : Type} [Zero α] [Add α] [Mul α]

theorem mac_ready {s : State α} {N c : Nat} {h coeff : List α} (hr : Ready s N c h coeff)
    (hN : 1 ≤ N) (hmax : N ≤ 2147483647) (hc : c < N) (k : Nat) (hk : k < N) (out : α) :
    mac s k 0 out = some (out + h.getD ((c + k) % N) 0 * coeff.getD k 0) := by
  have hT : toU32 s.p_Taps = N := by rw [hr.taps]; exact toU32_natCast N (by omega)
  have hI : toU32 s.p_Index = c := by rw [hr.index]; exact toU32_natCast c (by omega)
  have hmod : (c + k) % N < N := Nat.mod_lt _ (by omega)
  have hsi : sampleIndex s k 0 = (c + k) % N := by
    unfold sampleIndex
    rw [hT, hI, Nat.add_zero, Nat.mod_eq_of_lt (by omega : c + k < 4294967296)]
  have hci : coeffIndex k 0 = k := by
    unfold coeffIndex
    rw [Nat.add_zero, Nat.mod_eq_of_lt (by omega)]
  have h1 : h[(c + k) % N]? = some (h.getD ((c + k) % N) 0) := by
    rw [List.getD_eq_getElem?_getD, List.getElem?_eq_getElem (by rw [hr.hlen]; exact hmod)]
    simp
  have h2 : coeff[k]? = some (coeff.getD k 0) := by
    rw [List.getD_eq_getElem?_getD, List.getElem?_eq_getElem (by rw [hr.clen]; exact hk)]
    simp
  unfold mac
  rw [hr.samples, hr.coeffs]
  simp only [hT, hsi, hci, h1, h2]
  rw [if_neg (by omega)]

theorem macSeq_ready {s : State α} {N c : Nat} {h coeff : List α} (hr : Ready s N c h coeff)
    (hN : 1 ≤ N) (hmax : N ≤ 2147483647) (hc : c < N) :
    ∀ (count start : Nat) (out : α), start + count ≤ N →
      macSeq s count start out = some ((List.range' start count).foldl
        (fun acc k => acc + h.getD ((c + k) % N) 0 * coeff.getD k 0) out) := by
  intro count
  induction count with
  | zero => intro start out _; simp [macSeq]
  | succ n ih =>
    intro start out hle
    simp only [macSeq]
    rw [mac_ready hr hN hmax hc start (by omega) out, Option.some_bind,
      ih (start + 1) _ (by omega), List.range'_succ, List.foldl_cons]

theorem nextIndex_ready (N c : Nat) (hN : 1 ≤ N) (hmax : N ≤ 2147483647) (hc : c < N) :
    nextIndex (c : Int) (N : Int) = some (((c + 1) % N : Nat) : Int) := by
  unfold nextIndex INT_MAX
  rw [if_neg (by omega)]
  congr 1

/-- One call of `filter` on a Ready state, in closed form: the output is the plain sum over
the history with the new sample stored at the cursor, and only the history slot at the
cursor and the cursor itself change. -/
theorem filter_ready {s : State α} {N c : Nat} {h coeff : List α} (hr : Ready s N c h coeff)
    (hN : 1 ≤ N) (hmax : N ≤ 2147483647) (hc : c < N) (x : α) :
    filter s x = some (convolve N c (h.set c x) coeff,
      { s with p_Samples := some (h.set c x), p_Index := (((c + 1) % N : Nat) : Int) }) := by
  have hr1 : Ready ({ s with p_Samples := some (h.set c x) } : State α) N c (h.set c x) coeff :=
    ⟨hr.taps, hr.index, rfl, hr.coeffs, by rw [List.length_set]; exact hr.hlen, hr.clen⟩
  have hst : store h s.p_Index x = some (h.set c x) := by
    unfold store
    rw [hr.index, if_pos ⟨by omega, by simpa [hr.hlen] using hc⟩]
    simp
  have hT : toU32 s.p_Taps = N := by rw [hr.taps]; exact toU32_natCast N (by omega)
  unfold filter
  rw [hr.samples]
  simp only [hst, hT]
  rw [loops_eq _ N (by omega) 0, macSeq_ready hr1 hN hmax hc N 0 0 (by omega)]
  simp only [Option.map_some']
  rw [hr.index, hr.taps, nextIndex_ready N c hN hmax hc]
  simp only [convolve, List.range_eq_range']

end FilterCall

/-! ## Loops that fill a buffer -/

section Buffers

theorem store_natCast {β : Type} (b : List β) (i : Nat) (v : β) (hi : i < b.length) :
    store b (i : Int) v = some (b.set i v) := by
  unfold store
  rw [if_pos ⟨by omega, by simpa using hi⟩]
  simp

theorem load_natCast {β : Type} (b : List β) (i : Nat) (d : β) (hi : i < b.length) :
    load b (i : Int) = some (b.getD i d) := by
  unfold load
  rw [if_pos (by omega)]
  simp [List.getD_eq_getElem?_getD, List.getElem?_eq_getElem hi]

theorem forLoop_nonpos {σ : Type} (bound : Int) (hb : bound ≤ 0) (body : Int → σ → Option σ)
    (x : σ) : forLoop bound body x = some x := by
  unfold forLoop
  have : bound.toNat = 0 := by omega
  rw [this]
  rfl

/-- A loop whose `i`-th pass replaces element `i` of a buffer of length `N` by a function of
`i` and of the old element leaves the elementwise image of the buffer. -/
theorem forLoop_pointwise {β : Type} (d : β) (N : Nat) (F : Nat → β → β)
    (body : Int → List β → Option (List β))
    (hbody : ∀ (i : Nat) (b : List β), i < N → b.length = N →
      body (i : Int) b = some (b.set i (F i (b.getD i d))))
    (buf : List β) (hlen : buf.length = N) :
    forLoop (N : Int) body buf = some ((List.range N).map (fun i => F i (buf.getD i d))) := by
  have key : ∀ k, k ≤ N →
      (List.range k).foldlM (fun st (i : Nat) => body (i : Int) st) buf
        = some ((List.range N).map
            (fun i => if i < k then F i (buf.getD i d) else buf.getD i d)) := by
    intro k
    induction k with
    | zero =>
      intro _
      simp only [List.range_zero, List.foldlM_nil, Nat.not_lt_zero, if_false]
      congr 1
      apply List.ext_getElem?
      intro i
      by_cases hi : i < N
      · simp [List.getElem?_eq_getElem, hi, hlen, List.getD_eq_getElem?_getD]
      · simp [List.getElem?_eq_none, hi, hlen, Nat.le_of_not_lt hi]
    | succ k ih =>
      intro hk
      rw [List.range_succ, List.foldlM_append, ih (by omega)]
      simp only [Option.bind_eq_bind, Option.some_bind, List.foldlM_cons, List.foldlM_nil]
      rw [hbody k _ (by omega) (by simp)]
      simp only [Option.some_bind, Option.pure_def]
      congr 1
      apply List.ext_getElem?
      intro i
      by_cases hi : i < N
      · by_cases hik : i = k
        · subst hik
          simp [List.getElem?_set, hi, List.getD_eq_getElem?_getD]
        · have : k ≠ i := fun h => hik h.symm
          by_cases hlt : i < k
          · have hlt1 : i < k + 1 := by omega
            simp [List.getElem?_set, hi, this, hlt, hlt1]
          · have hlt1 : ¬ i < k + 1 := by omega
            simp [List.getElem?_set, hi, this, hlt, hlt1]
      · simp [List.getElem?_set, hi, List.getElem?_eq_none, Nat.le_of_not_lt hi]
  unfold forLoop
  rw [Int.toNat_ofNat, key N (Nat.le_refl N)]
  congr 1
  apply List.map_congr_left
  intro i hi
  rw [if_pos (List.mem_range.mp hi)]

end Buffers

/-! ## `init` in closed form -/

section InitClosed

theorem elemCount_natCast (N : Nat) (h : N ≤ 2147483647) : elemCount (N : Int) = N := by
  unfold elemCount
  omega

theorem memsetZero_replicate {β : Type} [Zero β] (n : Nat) (junk : β) :
    memsetZero (List.replicate n junk) n = some (List.replicate n 0) := by
  unfold memsetZero
  simp

variable {α : Type}

theorem centeredIndices_ok (a : Allocs α) (s : State α) (N : Nat) (hN : N ≤ 2147483647)
    (ht : s.p_Taps = (N : Int)) (hn : a.n = true) :
    centeredIndices a s = some (ResultCodes.RESULT_SUCCESS,
      (List.range N).map (fun (i : Nat) => (i : Int) - Int.tdiv (N : Int) 2)) := by
  unfold centeredIndices
  simp only [ht, hn, malloc, if_true, elemCount_natCast N hN, memsetZero_replicate,
    Option.some_bind, Option.isNone_some]
  rw [forLoop_pointwise (0 : Int) N (fun (i : Nat) _ => (i : Int) - Int.tdiv (N : Int) 2) _
    (fun i b hi hb => store_natCast b i _ (by omega)) _ (by simp)]
  rfl

theorem writeTaps_ok (s : State α) (N : Nat) (c : List α) (hc : s.p_Coefficients = some c)
    (hlen : c.length = N) (ht : s.p_Taps = (N : Int)) (g : Nat → Int) (tap : Int → α) (d : α) :
    writeTaps s ((List.range N).map g) tap
      = some { s with p_Coefficients := some ((List.range N).map (fun i => tap (g i))) } := by
  unfold writeTaps
  rw [hc, ht]
  simp only [Option.some_bind]
  rw [forLoop_pointwise d N (fun i _ => tap (g i)) _ _ c hlen]
  · rfl
  · intro i b hi hb
    rw [load_natCast _ i 0 (by simpa using hi)]
    simp only [Option.some_bind]
    rw [store_natCast b i _ (by omega)]
    simp [List.getD_eq_getElem?_getD, hi]

theorem writeWindow_ok (s : State α) (N : Nat) (w : List α) (hw : s.p_Window = some w)
    (hlen : w.length = N) (ht : s.p_Taps = (N : Int)) (f : Int → α) (d : α) :
    writeWindow s f
      = some { s with p_Window := some ((List.range N).map (fun (i : Nat) => f (i : Int))) } := by
  unfold writeWindow
  rw [hw, ht]
  simp only [Option.some_bind]
  rw [forLoop_pointwise d N (fun (i : Nat) _ => f (i : Int)) _
    (fun i b hi hb => store_natCast b i _ (by omega)) w hlen]
  rfl

theorem applyWindow_ok [Mul α] (s : State α) (N : Nat) (c w : List α) (d : α)
    (hc : s.p_Coefficients = some c) (hw : s.p_Window = some w)
    (hclen : c.length = N) (hwlen : w.length = N) (ht : s.p_Taps = (N : Int)) :
    applyWindow s
      = some { s with
          p_Coefficients := some ((List.range N).map (fun i => c.getD i d * w.getD i d))
          p_Window := none } := by
  unfold applyWindow
  rw [hc, hw, ht]
  simp only [Option.some_bind]
  rw [forLoop_pointwise d N (fun i v => v * w.getD i d) _ _ c hclen]
  · rfl
  · intro i b hi hb
    rw [load_natCast b i d (by omega), load_natCast w i d (by omega)]
    simp only [Option.some_bind]
    rw [store_natCast b i _ (by omega)]


theorem getD_map_range {β : Type} (N : Nat) (f : Nat → β) (d : β) (i : Nat) (hi : i < N) :
    ((List.range N).map f).getD i d = f i := by
  simp [List.getD_eq_getElem?_getD, hi]

variable [LinearOrderedField α]

theorem design_ok (m : MathEnv α) (a : Allocs α) (s : State α) (N : Nat)
    (hN : N ≤ 2147483647) (ht : s.p_Taps = (N : Int)) (hn : a.n = true) (c : List α)
    (hc : s.p_Coefficients = some c) (hlen : c.length = N) :
    design m a s = some (ResultCodes.RESULT_SUCCESS,
      { s with p_Coefficients := some ((List.range N).map (fun (i : Nat) =>
          tapValue m s.p_FilterType (s.p_MinFrequency : α) (s.p_MaxFrequency : α)
            ((i : Int) - Int.tdiv (N : Int) 2))) }) := by
  unfold design
  cases hf : s.p_FilterType <;>
    simp only [lowPassCoefficients, highPassCoefficients, bandPassCoefficients,
      bandStopCoefficients, centeredIndices_ok a s N hN ht hn, Option.some_bind,
      writeTaps_ok s N c hc hlen ht _ _ 0, tapValue, hf]

/-- For `i < N` the quotient `(i - (N-1)/2) / (N/2)` of `windowTriangle` lies strictly
between `-1` and `1`. -/
theorem triangle_quotient_bounds (N i : Nat) (hi : i < N) :
    -1 < (((i : Int) : α) - (((N : Int) - 1 : Int) : α) / 2) / (((N : Int) : α) / 2)
      ∧ (((i : Int) : α) - (((N : Int) - 1 : Int) : α) / 2) / (((N : Int) : α) / 2) < 1 := by
  have hNr : (0 : α) < ((N : Int) : α) / 2 := by
    have : (0 : α) < ((N : Int) : α) := by exact_mod_cast (by omega : 0 < N)
    linarith
  have hi0 : (0 : α) ≤ ((i : Int) : α) := by exact_mod_cast Nat.zero_le i
  have hi1 : ((i : Int) : α) ≤ (((N : Int) - 1 : Int) : α) := by
    have : (i : Int) ≤ (N : Int) - 1 := by omega
    exact_mod_cast this
  have hd : (((N : Int) - 1 : Int) : α) = ((N : Int) : α) - 1 := by push_cast; ring
  constructor
  · rw [lt_div_iff₀ hNr]
    linarith
  · rw [div_lt_one hNr]
    linarith

/-- A `float` strictly between `-1` and `1` converts to the `int` `0`. -/
theorem truncToInt_small [FloorRing α] (x : α) (h1 : -1 < x) (h2 : x < 1) :
    truncToInt x = 0 := by
  unfold truncToInt
  by_cases h0 : 0 ≤ x
  · rw [if_pos h0]
    exact Int.floor_eq_zero_iff.mpr ⟨h0, h2⟩
  · rw [if_neg h0]
    refine Int.ceil_eq_zero_iff.mpr ⟨?_, le_of_lt (not_le.mp h0)⟩
    simpa using h1

theorem floatToInt_small [FloorRing α] (x : α) (h1 : -1 < x) (h2 : x < 1) :
    floatToInt x = some 0 := by
  have h := truncToInt_small x h1 h2
  unfold truncToInt at h
  unfold floatToInt INT_MAX
  simp only [h]
  rfl

/-- Every weight `windowTriangle` writes is `1`: the quotient converts to the `int` `0`. -/
theorem weightValue_triangle [FloorRing α] (m : MathEnv α) (N i : Nat) (hi : i < N) :
    weightValue m windowType.TRIANGLE (N : Int) (i : Int) = 1 := by
  have hb := triangle_quotient_bounds (α := α) N i hi
  simp only [weightValue, truncToInt_small _ hb.1 hb.2]
  norm_num

/-- `windowTriangle` in closed form: every slot of the window receives `1`. -/
theorem windowTriangle_ok [FloorRing α] (m : MathEnv α) (s : State α) (N : Nat)
    (ht : s.p_Taps = (N : Int)) (w : List α) (hw : s.p_Window = some w) (hlen : w.length = N) :
    windowTriangle s = some { s with p_Window := some ((List.range N).map (fun (i : Nat) =>
      weightValue m windowType.TRIANGLE (N : Int) (i : Int))) } := by
  unfold windowTriangle
  rw [hw, ht]
  simp only [Option.some_bind]
  rw [forLoop_pointwise 0 N (fun (i : Nat) _ => weightValue m windowType.TRIANGLE (N : Int) (i : Int))
    _ _ w hlen]
  · rfl
  · intro i b hi hb
    have hq := triangle_quotient_bounds (α := α) N i hi
    rw [floatToInt_small _ hq.1 hq.2]
    simp only [Option.some_bind, intAbs]
    rw [if_neg (by decide), Option.some_bind, store_natCast b i _ (by omega),
      weightValue_triangle m N i hi]
    norm_num

theorem shape_ok [FloorRing α] (m : MathEnv α) (s : State α) (N : Nat)
    (ht : s.p_Taps = (N : Int)) (w : List α) (hw : s.p_Window = some w)
    (hlen : w.length = N) :
    shape m s = some { s with p_Window := some ((List.range N).map (fun (i : Nat) =>
      weightValue m s.p_WindowType (N : Int) (i : Int))) } := by
  unfold shape
  cases hf : s.p_WindowType
  · simp only [windowHamming, writeWindow_ok s N w hw hlen ht _ 0, weightValue, ht, hf]
  · simp only [windowTriangle_ok m s N ht w hw hlen, hf]
  · simp only [windowBlackman, writeWindow_ok s N w hw hlen ht _ 0, weightValue, ht, hf]

/-- `init` in closed form when every allocation succeeds and the tap count is a non-negative
`int`: the result is `RESULT_SUCCESS`, tap `i` is the designed tap times the window weight,
the history is cleared and the window buffer is released. -/
theorem init_ok [FloorRing α] (m : MathEnv α) (a : Allocs α) (s : State α) (N : Nat)
    (hN : N ≤ 2147483647) (ht : s.p_Taps = (N : Int))
    (hc : a.coefficients = true) (hs : a.samples = true) (hw : a.window = true)
    (hn : a.n = true) :
    init m a s = some (ResultCodes.RESULT_SUCCESS,
      { s with
        p_Coefficients := some ((List.range N).map (fun (i : Nat) =>
          tapValue m s.p_FilterType (s.p_MinFrequency : α) (s.p_MaxFrequency : α)
              ((i : Int) - Int.tdiv (N : Int) 2)
            * weightValue m s.p_WindowType (N : Int) (i : Int)))
        p_Samples := some (List.replicate N 0)
        p_Window := none }) := by
  unfold init
  simp only [hc, hs, hw, malloc, if_true, ht, elemCount_natCast N hN, memsetZero_replicate,
    Option.some_bind]
  rw [design_ok m a _ N hN rfl hn (List.replicate N 0) rfl (by simp)]
  simp only [Option.some_bind, ne_eq, not_true_eq_false, if_false]
  rw [shape_ok m _ N rfl (List.replicate N 0) rfl (by simp)]
  simp only [Option.some_bind]
  rw [applyWindow_ok _ N _ _ 0 rfl rfl (by simp) (by simp) rfl]
  simp only [Option.some_bind]
  congr 4
  apply List.map_congr_left
  intro i hi
  rw [getD_map_range N _ 0 i (List.mem_range.mp hi), getD_map_range N _ 0 i (List.mem_range.mp hi)]

end InitClosed

/-! ## A stream of calls of `filter` -/

section Stream

variable {α : Type}

theorem track_append (N : Nat) (p : List α × Nat) (xs : List α) (x : α) :
    track N p (xs ++ [x]) = advance N (track N p xs) x := by
  simp [track, List.foldl_append]

theorem track_length (N : Nat) (xs : List α) :
    ∀ p : List α × Nat, (track N p xs).1.length = p.1.length := by
  induction xs with
  | nil => intro p; rfl
  | cons x xs ih =>
    intro p
    show (track N (advance N p x) xs).1.length = _
    rw [ih]
    simp [advance]

theorem track_cursor_lt (N : Nat) (hN : 1 ≤ N) (xs : List α) :
    ∀ p : List α × Nat, p.2 < N → (track N p xs).2 < N := by
  induction xs with
  | nil => intro p hp; exact hp
  | cons x xs ih =>
    intro p _
    show (track N (advance N p x) xs).2 < N
    exact ih _ (Nat.mod_lt _ (by omega))

theorem track_cursor [Zero α] (N : Nat) (xs : List α) :
    (track N (List.replicate N (0 : α), 0) xs).2 = xs.length % N := by
  induction xs using List.reverseRecOn with
  | nil => simp [track, Nat.zero_mod]
  | append_singleton xs x ih =>
    rw [track_append]
    simp only [advance, ih, List.length_append, List.length_singleton]
    exact Nat.mod_add_mod _ _ _

theorem mod_shift_ne (N c k : Nat) (hc : c < N) (hk1 : 1 ≤ k) (hk : k < N) : (c + k) % N ≠ c := by
  by_cases h : c + k < N
  · rw [Nat.mod_eq_of_lt h]; omega
  · have h2 : (c + k) % N = c + k - N := by
      rw [Nat.mod_eq_sub_mod (by omega), Nat.mod_eq_of_lt (by omega)]
    omega

/-- The history after a stream, read from the cursor, is the last `N` samples of the stream,
oldest first, with zeros standing for the samples before the start. -/
theorem track_history [Zero α] (N : Nat) (hN : 1 ≤ N) (xs : List α) :
    ∀ j, j < N →
      (track N (List.replicate N (0 : α), 0) xs).1.getD ((xs.length % N + j) % N) 0
        = sampleAt xs ((xs.length : Int) - (N : Int) + (j : Int)) := by
  induction xs using List.reverseRecOn with
  | nil =>
    intro j hj
    have hneg : ((([] : List α).length : Int) - (N : Int) + (j : Int)) < 0 := by
      simp only [List.length_nil]; omega
    simp only [track, List.foldl_nil, sampleAt, hneg, if_true]
    simp [List.getD_eq_getElem?_getD, List.getElem?_replicate, Nat.mod_lt _ hN]
  | append_singleton xs x ih =>
    intro j hj
    rw [track_append]
    have hlen : (track N (List.replicate N (0 : α), 0) xs).1.length = N := by
      rw [track_length]; simp
    have hcur := track_cursor N xs (α := α)
    have hc : xs.length % N < N := Nat.mod_lt _ hN
    simp only [advance, hcur, List.length_append, List.length_singleton]
    by_cases hjl : j = N - 1
    · have hidx : ((xs.length + 1) % N + j) % N = xs.length % N := by
        rw [Nat.mod_add_mod, hjl]
        have : xs.length + 1 + (N - 1) = xs.length + N := by omega
        rw [this, Nat.add_mod_right]
      rw [hidx]
      have hu : (((xs.length + 1 : Nat) : Int) - (N : Int) + (j : Int)) = (xs.length : Int) := by
        omega
      rw [hu]
      have hnn : ¬ ((xs.length : Int) < 0) := by omega
      simp [sampleAt, List.getD_eq_getElem?_getD, List.getElem?_set, hlen, hc, hnn]
    · have hidx : ((xs.length + 1) % N + j) % N = (xs.length % N + (j + 1)) % N := by
        rw [Nat.mod_add_mod, Nat.mod_add_mod, Nat.add_assoc, Nat.add_comm 1 j]
      rw [hidx]
      have hne := mod_shift_ne N (xs.length % N) (j + 1) hc (by omega) (by omega)
      have hu : (((xs.length + 1 : Nat) : Int) - (N : Int) + (j : Int))
          = (xs.length : Int) - (N : Int) + ((j + 1 : Nat) : Int) := by omega
      rw [List.getD_eq_getElem?_getD, List.getElem?_set_ne (Ne.symm hne),
        ← List.getD_eq_getElem?_getD, ih (j + 1) (by omega), hu]
      unfold sampleAt
      by_cases hneg : (xs.length : Int) - (N : Int) + ((j + 1 : Nat) : Int) < 0
      · rw [if_pos hneg, if_pos hneg]
      · rw [if_neg hneg, if_neg hneg]
        have hlt : ((xs.length : Int) - (N : Int) + ((j + 1 : Nat) : Int)).toNat < xs.length := by
          omega
        rw [List.getD_eq_getElem?_getD, List.getD_eq_getElem?_getD,
          List.getElem?_append_left hlt]


theorem outputs_length [Zero α] [Add α] [Mul α] (N : Nat) (coeff : List α) (xs : List α) :
    ∀ p : List α × Nat, (outputs N coeff p xs).length = xs.length := by
  induction xs with
  | nil => intro p; rfl
  | cons x xs ih => intro p; simp [outputs, ih]

/-- Output `t` of a stream is the plain sum over the history that holds the first `t + 1`
samples, read from the cursor reached after `t` samples. -/
theorem outputs_getElem? [Zero α] [Add α] [Mul α] (N : Nat) (coeff : List α) (xs : List α) :
    ∀ (p : List α × Nat) (t : Nat), t < xs.length →
      (outputs N coeff p xs)[t]? = some (convolve N (track N p (xs.take t)).2
        (track N p (xs.take (t + 1))).1 coeff) := by
  induction xs with
  | nil => intro p t ht; simp at ht
  | cons x xs ih =>
    intro p t ht
    cases t with
    | zero => simp [outputs, track, advance]
    | succ t =>
      simp only [outputs, List.getElem?_cons_succ, List.take_succ_cons]
      rw [ih (advance N p x) t (by simpa using ht)]
      rfl

/-- A stream of calls on a Ready state, in closed form. -/
theorem filterAll_ready [Zero α] [Add α] [Mul α] {N : Nat} {coeff : List α} (hN : 1 ≤ N)
    (hmax : N ≤ 2147483647) (xs : List α) :
    ∀ (s : State α) (c : Nat) (h : List α), Ready s N c h coeff → c < N →
      filterAll s xs = some (outputs N coeff (h, c) xs,
        { s with p_Samples := some (track N (h, c) xs).1,
                 p_Index := ((track N (h, c) xs).2 : Int) }) := by
  induction xs with
  | nil =>
    intro s c h hr _
    cases s
    simp only [filterAll, outputs, track, List.foldl_nil]
    have h1 := hr.samples
    have h2 := hr.index
    simp only at h1 h2
    rw [h1, h2]
  | cons x xs ih =>
    intro s c h hr hc
    have hr1 : Ready
        ({ s with
            p_Samples := some (h.set c x)
            p_Index := (((c + 1) % N : Nat) : Int) } : State α)
        N ((c + 1) % N) (h.set c x) coeff :=
      ⟨hr.taps, rfl, rfl, hr.coeffs, by rw [List.length_set]; exact hr.hlen, hr.clen⟩
    simp only [filterAll, filter_ready hr hN hmax hc x,
      ih _ _ _ hr1 (Nat.mod_lt _ (by omega)), outputs]
    rfl

end Stream

/-! ## Auxiliary facts for the statements about the convolver -/

section Aux

variable {α : Type}

theorem ready_readyState [Zero α] (coeff : List α) (ft : filterType) (wt : windowType)
    (fmin fmax : Int) :
    Ready (readyState coeff ft wt fmin fmax) coeff.length 0
      (List.replicate coeff.length 0) coeff :=
  ⟨rfl, rfl, rfl, rfl, by simp, rfl⟩

theorem map_getD_range [Zero α] (l : List α) :
    (List.range l.length).map (fun k => l.getD k 0) = l := by
  apply List.ext_getElem?
  intro i
  by_cases hi : i < l.length
  · simp [hi, List.getD_eq_getElem?_getD, List.getElem?_eq_getElem]
  · simp [hi, List.getElem?_eq_none, Nat.le_of_not_lt hi]

theorem foldl_range_getD [Zero α] [Add α] (l : List α) (z : α) :
    (List.range l.length).foldl (fun acc k => acc + l.getD k 0) z = l.foldl (· + ·) z := by
  have h := List.foldl_map (fun k => l.getD k 0) (fun (acc : α) (v : α) => acc + v)
    (List.range l.length) z
  rw [map_getD_range] at h
  exact h.symm

/-- Whatever the state, a call of `filter` that returns does not touch the coefficients, the
tap count, the window buffer or the configuration. -/
theorem filter_preserves [Zero α] [Add α] [Mul α] (s s' : State α) (x y : α)
    (h : filter s x = some (y, s')) :
    s'.p_Coefficients = s.p_Coefficients ∧ s'.p_Taps = s.p_Taps ∧ s'.p_Window = s.p_Window
      ∧ s'.p_FilterType = s.p_FilterType ∧ s'.p_WindowType = s.p_WindowType
      ∧ s'.p_MinFrequency = s.p_MinFrequency ∧ s'.p_MaxFrequency = s.p_MaxFrequency := by
  unfold filter at h
  split at h
  · exact absurd h (by simp)
  · split at h
    · exact absurd h (by simp)
    · simp only at h
      split at h
      · exact absurd h (by simp)
      · split at h
        · exact absurd h (by simp)
        · simp only [Option.some.injEq, Prod.mk.injEq] at h
          obtain ⟨_, rfl⟩ := h
          exact ⟨rfl, rfl, rfl, rfl, rfl, rfl, rfl⟩

theorem filterAll_preserves [Zero α] [Add α] [Mul α] (xs : List α) :
    ∀ (s s' : State α) (ys : List α), filterAll s xs = some (ys, s') →
      s'.p_Coefficients = s.p_Coefficients ∧ s'.p_Taps = s.p_Taps := by
  induction xs with
  | nil =>
    intro s s' ys h
    simp only [filterAll, Option.some.injEq, Prod.mk.injEq] at h
    obtain ⟨_, rfl⟩ := h
    exact ⟨rfl, rfl⟩
  | cons x xs ih =>
    intro s s' ys h
    simp only [filterAll] at h
    split at h
    · exact absurd h (by simp)
    · rename_i y s1 hf
      split at h
      · exact absurd h (by simp)
      · rename_i zs s2 hrest
        simp only [Option.some.injEq, Prod.mk.injEq] at h
        obtain ⟨_, rfl⟩ := h
        have h1 := filter_preserves s s1 x y hf
        have h2 := ih s1 s2 zs hrest
        exact ⟨h2.1.trans h1.1, h2.2.trans h1.2.1⟩

/-- After at least `N` samples `1`, every slot of the history reads `1`. -/
theorem track_ones [Zero α] [One α] (N : Nat) (hN : 1 ≤ N) (t : Nat) (ht : N - 1 ≤ t) :
    ∀ k, k < N →
      (track N (List.replicate N (0 : α), 0) (List.replicate (t + 1) 1)).1.getD
        ((t % N + k) % N) 0 = 1 := by
  intro k hk
  have key : ∀ j, j < N →
      (track N (List.replicate N (0 : α), 0) (List.replicate (t + 1) 1)).1.getD
        (((t + 1) % N + j) % N) 0 = 1 := by
    intro j hj
    have h := track_history N hN (List.replicate (t + 1) (1 : α)) j hj
    simp only [List.length_replicate] at h
    rw [h]
    unfold sampleAt
    have hnn : ¬ (((t + 1 : Nat) : Int) - (N : Int) + (j : Int) < 0) := by omega
    rw [if_neg hnn]
    have hlt : (((t + 1 : Nat) : Int) - (N : Int) + (j : Int)).toNat < t + 1 := by omega
    rw [List.getD_eq_getElem?_getD, List.getElem?_replicate, if_pos hlt]
    rfl
  by_cases hk0 : k = 0
  · have h := key (N - 1) (by omega)
    have e : ((t + 1) % N + (N - 1)) % N = (t % N + k) % N := by
      rw [Nat.mod_add_mod, Nat.mod_add_mod, hk0]
      have : t + 1 + (N - 1) = t + 0 + N := by omega
      rw [this, Nat.add_mod_right]
    rw [e] at h
    exact h
  · have h := key (k - 1) (by omega)
    have e : ((t + 1) % N + (k - 1)) % N = (t % N + k) % N := by
      rw [Nat.mod_add_mod, Nat.mod_add_mod]
      have : t + 1 + (k - 1) = t + k := by omega
      rw [this]
    rw [e] at h
    exact h

end Aux

/-! ## The convolver -/

section Convolver

/-- C1: on every Ready filter with `N ≥ 1` taps (`N` an `int`), cursor `c < N`, coefficients
`coeff` and history `h`, the call `filter(x)` returns exactly the sum of
`h'[(c + k) mod N] * coeff[k]` for `k = 0, ..., N-1`, accumulated left to right from `0` by a
single plain loop, where `h'` is `h` with slot `c` replaced by `x`.  No law of arithmetic is
used: the loops unrolled by 32, by 4 and by 1 perform the same additions in the same
order, whatever `N` is. -/
theorem filter_refines_plain_loop {α : Type} [Zero α] [Add α] [Mul α] (s : State α)
    (N c : Nat) (h coeff : List α) (x : α) (hr : Ready s N c h coeff) (hN : 1 ≤ N)
    (hmax : N ≤ 2147483647) (hc : c < N) :
    (filter s x).map Prod.fst
      = some ((List.range N).foldl
          (fun acc k => acc + (h.set c x).getD ((c + k) % N) 0 * coeff.getD k 0) 0)
    ∧ (filter s x).map Prod.fst = some (convolve N c (h.set c x) coeff) := by
  rw [filter_ready hr hN hmax hc x]
  exact ⟨rfl, rfl⟩

/-- Witness for C1 with 37 taps, so that the loop by 32, the loop by 4 and the loop by 1 all
run: with every coefficient `2`, a zero history and the sample `5`, the output is `10`. -/
theorem filter_refines_plain_loop_witness :
    Ready (readyState (List.replicate 37 (2 : Int)) filterType.LOWPASS_FILTER
        windowType.HAMMING 0 0) 37 0 (List.replicate 37 0) (List.replicate 37 2)
      ∧ (filter (readyState (List.replicate 37 (2 : Int)) filterType.LOWPASS_FILTER
            windowType.HAMMING 0 0) 5).map Prod.fst = some 10 :=
  ⟨ready_readyState (List.replicate 37 (2 : Int)) _ _ 0 0,
    (filter_refines_plain_loop _ 37 0 (List.replicate 37 0) (List.replicate 37 2) 5
      (ready_readyState (List.replicate 37 (2 : Int)) _ _ 0 0) (by decide) (by decide)
      (by decide)).2.trans (by decide)⟩

/-- C2, evaluated: with the three coefficients `1, 2, 3`, a zero history and cursor `0`, the
impulse `1, 0, 0` produces the outputs `1, 3, 2`: call `1` returns `coeff[2]` and call `2`
returns `coeff[1]`, because the sum walks forward from the slot just written.  The output
stream is not the coefficient sequence `1, 2, 3`. -/
theorem impulse_response_rotated :
    (filterAll (readyState [(1 : Int), 2, 3] filterType.LOWPASS_FILTER windowType.HAMMING 0 0)
        [1, 0, 0]).map Prod.fst = some [1, 3, 2]
      ∧ ([1, 3, 2] : List Int) ≠ [1, 2, 3] := by
  constructor
  · rw [filterAll_ready (N := 3) (by decide) (by decide) [1, 0, 0] _ 0 _
      (ready_readyState [(1 : Int), 2, 3] _ _ 0 0) (by decide)]
    decide
  · decide

/-- C4: starting from a zero history with cursor `0` and feeding the constant `1`, every call
from the `N`-th on (index `t ≥ N - 1`, counted from `0`) returns the sum of the coefficients,
accumulated left to right from `0`. -/
theorem dc_gain {α : Type} [Zero α] [Add α] [MulOneClass α] (s : State α) (N : Nat)
    (coeff : List α) (T t : Nat) (hr : Ready s N 0 (List.replicate N 0) coeff) (hN : 1 ≤ N)
    (hmax : N ≤ 2147483647) (ht : N - 1 ≤ t) (htT : t < T) :
    ∃ outs s', filterAll s (List.replicate T 1) = some (outs, s')
      ∧ outs.length = T
      ∧ outs[t]? = some (coeff.foldl (· + ·) 0) := by
  refine ⟨_, _, filterAll_ready hN hmax (List.replicate T 1) s 0 _ hr (by omega), ?_, ?_⟩
  · rw [outputs_length, List.length_replicate]
  · rw [outputs_getElem? N coeff _ _ t (by simpa using htT)]
    have e1 : (List.replicate T (1 : α)).take t = List.replicate t 1 := by
      rw [List.take_replicate, Nat.min_eq_left (by omega)]
    have e2 : (List.replicate T (1 : α)).take (t + 1) = List.replicate (t + 1) 1 := by
      rw [List.take_replicate, Nat.min_eq_left (by omega)]
    rw [e1, e2, track_cursor, List.length_replicate]
    congr 1
    unfold convolve
    rw [← hr.clen, ← foldl_range_getD coeff 0]
    apply List.foldl_ext
    intro acc k hk
    have hk' : k < N := by rw [← hr.clen]; exact List.mem_range.mp hk
    rw [hr.clen, track_ones N hN t ht k hk', one_mul]

/-- Witness for C4 with the three coefficients `1, 2, 3`: the fifth of six calls returns `6`. -/
theorem dc_gain_witness :
    ∃ outs s', filterAll (readyState [(1 : Int), 2, 3] filterType.LOWPASS_FILTER
        windowType.HAMMING 0 0) (List.replicate 6 1) = some (outs, s')
      ∧ outs.length = 6 ∧ outs[4]? = some (([1, 2, 3] : List Int).foldl (· + ·) 0) :=
  dc_gain _ 3 [1, 2, 3] 6 4 (ready_readyState [(1 : Int), 2, 3] _ _ 0 0) (by decide)
    (by decide) (by decide) (by decide)

/-- C6: after the samples `x_0, ..., x_{t-1}` fed from a zero history with cursor `0`, the cursor
is `t mod N` and slot `(cursor + j) mod N` of the history holds `x_{t-N+j}` for every
`j < N`, with `x_u = 0` for `u < 0`: the `N` most recent samples, oldest first from the
cursor. -/
theorem history_invariant {α : Type} [Zero α] [Add α] [Mul α] (s : State α) (N : Nat)
    (coeff xs : List α) (hr : Ready s N 0 (List.replicate N 0) coeff) (hN : 1 ≤ N)
    (hmax : N ≤ 2147483647) :
    ∃ outs s' hist, filterAll s xs = some (outs, s')
      ∧ s'.p_Index = ((xs.length % N : Nat) : Int)
      ∧ s'.p_Samples = some hist
      ∧ hist.length = N
      ∧ ∀ j, j < N →
          hist[(xs.length % N + j) % N]?
            = some (sampleAt xs ((xs.length : Int) - (N : Int) + (j : Int))) := by
  refine ⟨_, _, _, filterAll_ready hN hmax xs s 0 _ hr (by omega), ?_, rfl, ?_, ?_⟩
  · simp only [track_cursor]
  · rw [track_length]; simp
  · intro j hj
    have hlen : (track N (List.replicate N (0 : α), 0) xs).1.length = N := by
      rw [track_length]; simp
    rw [← track_history N hN xs j hj, List.getD_eq_getElem?_getD,
      List.getElem?_eq_getElem (by rw [hlen]; exact Nat.mod_lt _ (by omega))]
    rfl

/-- Witness for C6 with three taps and the five samples `10, 20, 30, 40, 50`. -/
theorem history_invariant_witness :
    ∃ outs s' hist, filterAll (readyState [(1 : Int), 2, 3] filterType.LOWPASS_FILTER
        windowType.HAMMING 0 0) [10, 20, 30, 40, 50] = some (outs, s')
      ∧ s'.p_Index = ((([10, 20, 30, 40, 50] : List Int).length % 3 : Nat) : Int)
      ∧ s'.p_Samples = some hist
      ∧ hist.length = 3
      ∧ ∀ j, j < 3 →
          hist[(([10, 20, 30, 40, 50] : List Int).length % 3 + j) % 3]?
            = some (sampleAt [10, 20, 30, 40, 50]
                ((([10, 20, 30, 40, 50] : List Int).length : Int) - (3 : Nat) + (j : Int))) :=
  history_invariant _ 3 [1, 2, 3] [10, 20, 30, 40, 50]
    (ready_readyState [(1 : Int), 2, 3] _ _ 0 0) (by decide) (by decide)

/-- C7: on a Ready state, a call `filter(x)` leaves the coefficients, the tap count, the filter
type, the window type (and the stored frequencies and the window pointer) unchanged; the
history keeps its length, slot `c` (the cursor before the call) becomes `x`, every other slot
keeps its value; and the cursor becomes `(c + 1) mod N`. -/
theorem filter_frame {α : Type} [Zero α] [Add α] [Mul α] (s : State α) (N c : Nat)
    (h coeff : List α) (x : α) (hr : Ready s N c h coeff) (hN : 1 ≤ N)
    (hmax : N ≤ 2147483647) (hc : c < N) :
    ∃ y s' h', filter s x = some (y, s')
      ∧ s'.p_Coefficients = s.p_Coefficients ∧ s'.p_Taps = s.p_Taps
      ∧ s'.p_FilterType = s.p_FilterType ∧ s'.p_WindowType = s.p_WindowType
      ∧ s'.p_MinFrequency = s.p_MinFrequency ∧ s'.p_MaxFrequency = s.p_MaxFrequency
      ∧ s'.p_Window = s.p_Window
      ∧ s'.p_Samples = some h' ∧ h'.length = N
      ∧ h'[c]? = some x ∧ (∀ i, i ≠ c → h'[i]? = h[i]?)
      ∧ s'.p_Index = (((c + 1) % N : Nat) : Int) := by
  refine ⟨_, _, h.set c x, filter_ready hr hN hmax hc x, rfl, rfl, rfl, rfl, rfl, rfl, rfl, rfl,
    ?_, ?_, ?_, rfl⟩
  · rw [List.length_set]; exact hr.hlen
  · rw [List.getElem?_set_self (by rw [hr.hlen]; exact hc)]
  · intro i hi
    rw [List.getElem?_set_ne (Ne.symm hi)]

/-- Witness for C7: three taps, cursor `0`, zero history, sample `7`. -/
theorem filter_frame_witness :
    ∃ y s' h', filter (readyState [(1 : Int), 2, 3] filterType.BANDPASS_FILTER
        windowType.BLACKMAN 0 0) 7 = some (y, s')
      ∧ s'.p_Coefficients = some [1, 2, 3] ∧ s'.p_Taps = 3
      ∧ s'.p_FilterType = filterType.BANDPASS_FILTER ∧ s'.p_WindowType = windowType.BLACKMAN
      ∧ s'.p_MinFrequency = 0 ∧ s'.p_MaxFrequency = 0
      ∧ s'.p_Window = none
      ∧ s'.p_Samples = some h' ∧ h'.length = 3
      ∧ h'[0]? = some 7 ∧ (∀ i, i ≠ 0 → h'[i]? = ([0, 0, 0] : List Int)[i]?)
      ∧ s'.p_Index = (((0 + 1) % 3 : Nat) : Int) :=
  filter_frame (readyState [(1 : Int), 2, 3] filterType.BANDPASS_FILTER
    windowType.BLACKMAN 0 0) 3 0 [0, 0, 0] [1, 2, 3] 7
    (ready_readyState [(1 : Int), 2, 3] _ _ 0 0) (by decide) (by decide) (by decide)

end Convolver

/-! ## Construction, initialisation and the coefficients -/

section Init

variable {α : Type} [LinearOrderedField α]

theorem new_eq [FloorRing α] (taps : Int) (ft : filterType) (wt : windowType)
    (fmin fmax : α) (s0 : State α) (h : new taps ft wt fmin fmax = some s0) :
    ∃ imin imax, floatToInt fmin = some imin ∧ floatToInt fmax = some imax
      ∧ s0 = { p_Coefficients := none, p_Samples := none, p_Window := none,
               p_MinFrequency := imin, p_MaxFrequency := imax, p_Index := 0, p_Taps := taps,
               p_FilterType := ft, p_WindowType := wt } := by
  unfold new at h
  split at h
  · rename_i imin imax h1 h2
    simp only [Option.some.injEq] at h
    exact ⟨imin, imax, h1, h2, h.symm⟩
  · exact absurd h (by simp)

/-- With a negative tap count no loop of `init` runs; if the allocations succeed the result
is `RESULT_SUCCESS`. -/
theorem init_ok_neg [FloorRing α] (m : MathEnv α) (a : Allocs α) (s : State α)
    (ht : s.p_Taps < 0)
    (hc : a.coefficients = true) (hs : a.samples = true) (hw : a.window = true)
    (hn : a.n = true) :
    ∃ s', init m a s = some (ResultCodes.RESULT_SUCCESS, s')
      ∧ s'.p_FilterType = s.p_FilterType ∧ s'.p_WindowType = s.p_WindowType := by
  have hle : s.p_Taps ≤ 0 := by omega
  unfold init
  simp only [hc, hs, hw, malloc, if_true, memsetZero_replicate, Option.some_bind]
  unfold design shape
  cases hf : s.p_FilterType <;> cases hg : s.p_WindowType <;>
    simp [lowPassCoefficients, highPassCoefficients, bandPassCoefficients,
      bandStopCoefficients, centeredIndices, writeTaps, malloc, hn, memsetZero_replicate,
      forLoop_nonpos _ hle, windowHamming, windowTriangle, windowBlackman, writeWindow,
      applyWindow, hf, hg]


theorem floatToInt_zero [FloorRing α] : floatToInt (0 : α) = some 0 := by
  unfold floatToInt INT_MAX
  simp

/-- A `float` in `[0, 1)` is stored in an `int` member as `0`. -/
theorem floatToInt_unit [FloorRing α] (f : α) (h0 : 0 ≤ f) (h1 : f < 1) :
    floatToInt f = some 0 := by
  unfold floatToInt INT_MAX
  have hfl : Int.floor f = 0 := Int.floor_eq_zero_iff.mpr ⟨h0, h1⟩
  simp [h0, hfl]

/-- `init` on a freshly constructed filter with a tap count `0 ≤ N ≤ INT_MAX`, every
allocation succeeding: success, a Ready state with cursor `0` and cleared history, and tap
`i` equal to the designed tap times the window weight. -/
theorem init_new_ok [FloorRing α] (m : MathEnv α) (junk : α) (junkInt : Int) (N : Nat)
    (hmax : N ≤ 2147483647) (ft : filterType) (wt : windowType) (fmin fmax : α)
    (s0 : State α) (hnew : new (N : Int) ft wt fmin fmax = some s0) :
    ∃ s, init m ⟨true, true, true, true, junk, junkInt⟩ s0
        = some (ResultCodes.RESULT_SUCCESS, s)
      ∧ Ready s N 0 (List.replicate N 0)
          ((List.range N).map (fun (i : Nat) =>
            tapValue m ft (s0.p_MinFrequency : α) (s0.p_MaxFrequency : α)
                ((i : Int) - Int.tdiv (N : Int) 2)
              * weightValue m wt (N : Int) (i : Int)))
      ∧ s.p_Window = none ∧ s.p_FilterType = ft ∧ s.p_WindowType = wt := by
  obtain ⟨imin, imax, _, _, rfl⟩ := new_eq _ _ _ _ _ _ hnew
  refine ⟨_, init_ok m _ _ N hmax rfl rfl rfl rfl rfl, ⟨rfl, rfl, rfl, rfl, by simp, by simp⟩,
    rfl, rfl, rfl⟩

end Init

/-! ## Safety, allocation and the designed coefficients -/

section Initialised

variable {α : Type} [LinearOrderedField α] [FloorRing α]

/-- C3, evaluated on scenario A: a filter constructed with 5 taps, `LOWPASS_FILTER`, `HAMMING`
and `minFrequency = 0.1` stores the frequency in the `int` member `p_MinFrequency` as `0`, and
after a successful `init` every coefficient is `0`; the centre coefficient differs from the
reference value `0.2` by more than `1e-5`.  This holds whatever `sinf`, `cosf` and `mPI`
are. -/
theorem lowpass_scenario_A_all_zero (m : MathEnv α) (junk : α) (junkInt : Int) :
    ∃ s0 s, new 5 filterType.LOWPASS_FILTER windowType.HAMMING (0.1 : α) 0 = some s0
      ∧ s0.p_MinFrequency = 0
      ∧ init m ⟨true, true, true, true, junk, junkInt⟩ s0
          = some (ResultCodes.RESULT_SUCCESS, s)
      ∧ getCoefficients s = some [0, 0, 0, 0, 0]
      ∧ ¬ (|(0 : α) - 0.2| ≤ 0.00001) := by
  have hf : floatToInt (0.1 : α) = some 0 := floatToInt_unit _ (by norm_num) (by norm_num)
  have hnew : new ((5 : Nat) : Int) filterType.LOWPASS_FILTER windowType.HAMMING (0.1 : α) 0
      = some { p_Coefficients := none, p_Samples := none, p_Window := none,
               p_MinFrequency := 0, p_MaxFrequency := 0, p_Index := 0, p_Taps := 5,
               p_FilterType := filterType.LOWPASS_FILTER,
               p_WindowType := windowType.HAMMING } := by
    unfold new
    rw [hf, floatToInt_zero]
    rfl
  obtain ⟨s, hinit, hr, -⟩ := init_new_ok m junk junkInt 5 (by decide) _ _ _ _ _ hnew
  refine ⟨_, s, hnew, rfl, hinit, ?_, ?_⟩
  · unfold getCoefficients
    rw [hr.coeffs]
    simp [tapValue, List.range_succ]
  · rw [zero_sub, abs_neg, abs_of_pos (by norm_num : (0 : α) < 0.2)]
    norm_num

/-- C5: on a filter constructed with `N ≥ 1` taps (`N` an `int`) and successfully
initialised, after any stream of calls of `filter` (the empty stream included) the cursor is
in `[0, N)`, both buffers have `N` elements, every index a further call uses is in range —
the sample index is `(p_Index + k) mod N < N` and the coefficient index is `k < N` for each
position `k = currentIdx + off < N` — and that call returns a result: the out-of-range
branch is not taken. -/
theorem index_safety (m : MathEnv α) (junk : α) (junkInt : Int) (N : Nat) (ft : filterType)
    (wt : windowType) (fmin fmax : α) (s0 : State α) (hN : 1 ≤ N) (hmax : N ≤ 2147483647)
    (hnew : new (N : Int) ft wt fmin fmax = some s0) :
    ∃ s, init m ⟨true, true, true, true, junk, junkInt⟩ s0
        = some (ResultCodes.RESULT_SUCCESS, s)
      ∧ ∀ xs : List α, ∃ outs s' hist coeff, filterAll s xs = some (outs, s')
          ∧ outs.length = xs.length
          ∧ s'.p_Samples = some hist ∧ s'.p_Coefficients = some coeff
          ∧ hist.length = N ∧ coeff.length = N
          ∧ 0 ≤ s'.p_Index ∧ s'.p_Index < (N : Int)
          ∧ (∀ currentIdx off, currentIdx + off < N →
              sampleIndex s' currentIdx off = (s'.p_Index.toNat + (currentIdx + off)) % N
                ∧ sampleIndex s' currentIdx off < hist.length
                ∧ coeffIndex currentIdx off = currentIdx + off
                ∧ coeffIndex currentIdx off < coeff.length)
          ∧ ∀ x, (filter s' x).isSome = true := by
  obtain ⟨s, hinit, hr, -⟩ := init_new_ok m junk junkInt N hmax ft wt fmin fmax s0 hnew
  refine ⟨s, hinit, ?_⟩
  intro xs
  have hrun := filterAll_ready hN hmax xs s 0 _ hr (by omega)
  have hcl : (track N (List.replicate N (0 : α), 0) xs).2 < N :=
    track_cursor_lt N hN xs _ (by show 0 < N; omega)
  have hlen : (track N (List.replicate N (0 : α), 0) xs).1.length = N := by
    rw [track_length]; simp
  have hr' : Ready
      ({ s with
          p_Samples := some (track N (List.replicate N (0 : α), 0) xs).1
          p_Index := ((track N (List.replicate N (0 : α), 0) xs).2 : Int) } : State α)
      N (track N (List.replicate N (0 : α), 0) xs).2
      (track N (List.replicate N (0 : α), 0) xs).1 _ :=
    ⟨hr.taps, rfl, rfl, hr.coeffs, hlen, hr.clen⟩
  refine ⟨_, _, _, _, hrun, outputs_length _ _ _ _, rfl, hr.coeffs, hlen, hr.clen, ?_, ?_, ?_,
    ?_⟩
  · show (0 : Int) ≤ ((track N (List.replicate N (0 : α), 0) xs).2 : Int)
    omega
  · show ((track N (List.replicate N (0 : α), 0) xs).2 : Int) < (N : Int)
    omega
  · intro currentIdx off hk
    have hT : toU32 s.p_Taps = N := by rw [hr.taps]; exact toU32_natCast N (by omega)
    have hI : toU32 ((track N (List.replicate N (0 : α), 0) xs).2 : Int)
        = (track N (List.replicate N (0 : α), 0) xs).2 := toU32_natCast _ (by omega)
    have hsi : sampleIndex ({ s with
          p_Samples := some (track N (List.replicate N (0 : α), 0) xs).1
          p_Index := ((track N (List.replicate N (0 : α), 0) xs).2 : Int) } : State α)
        currentIdx off
        = ((track N (List.replicate N (0 : α), 0) xs).2 + (currentIdx + off)) % N := by
      unfold sampleIndex
      simp only [hT, hI]
      rw [Nat.add_assoc, Nat.mod_eq_of_lt (a := _ + (currentIdx + off)) (by omega)]
    have hci : coeffIndex currentIdx off = currentIdx + off := by
      unfold coeffIndex
      exact Nat.mod_eq_of_lt (by omega)
    refine ⟨?_, ?_, hci, ?_⟩
    · rw [hsi]; simp
    · rw [hsi, hlen]; exact Nat.mod_lt _ (by omega)
    · rw [hci, List.length_map, List.length_range]; exact hk
  · intro x
    rw [filter_ready hr' hN hmax hcl x]
    rfl

/-- Witness for C5 with four taps. -/
theorem index_safety_witness :
    ∃ s, init (⟨3, fun x => x, fun x => x⟩ : MathEnv ℚ) ⟨true, true, true, true, 9, 9⟩
        ({ p_Coefficients := none, p_Samples := none, p_Window := none,
           p_MinFrequency := 0, p_MaxFrequency := 0, p_Index := 0, p_Taps := 4,
           p_FilterType := filterType.HIGHPASS_FILTER,
           p_WindowType := windowType.TRIANGLE } : State ℚ)
        = some (ResultCodes.RESULT_SUCCESS, s)
      ∧ ∀ xs : List ℚ, ∃ outs s' hist coeff, filterAll s xs = some (outs, s')
          ∧ outs.length = xs.length
          ∧ s'.p_Samples = some hist ∧ s'.p_Coefficients = some coeff
          ∧ hist.length = 4 ∧ coeff.length = 4
          ∧ 0 ≤ s'.p_Index ∧ s'.p_Index < ((4 : Nat) : Int)
          ∧ (∀ currentIdx off, currentIdx + off < 4 →
              sampleIndex s' currentIdx off = (s'.p_Index.toNat + (currentIdx + off)) % 4
                ∧ sampleIndex s' currentIdx off < hist.length
                ∧ coeffIndex currentIdx off = currentIdx + off
                ∧ coeffIndex currentIdx off < coeff.length)
          ∧ ∀ x, (filter s' x).isSome = true :=
  index_safety _ 9 9 4 filterType.HIGHPASS_FILTER windowType.TRIANGLE 0 0 _ (by decide)
    (by decide) (by unfold new; rw [floatToInt_zero]; rfl)

/-- C9: on a filter constructed with a tap count `N ≥ 0` (`N` an `int`), any filter type and
any window type, a successful `init` leaves a coefficient sequence of exactly `N` elements
and a history of exactly `N` zeros; whatever stream of `filter` calls returns, the coefficient
sequence afterwards is the same sequence, hence of length `N`; and for `N ≥ 1` every stream
of calls does return. -/
theorem init_length_invariant (m : MathEnv α) (junk : α) (junkInt : Int) (N : Nat)
    (ft : filterType) (wt : windowType) (fmin fmax : α) (s0 : State α)
    (hmax : N ≤ 2147483647) (hnew : new (N : Int) ft wt fmin fmax = some s0) :
    ∃ s coeff hist, init m ⟨true, true, true, true, junk, junkInt⟩ s0
        = some (ResultCodes.RESULT_SUCCESS, s)
      ∧ getCoefficients s = some coeff ∧ coeff.length = N
      ∧ s.p_Samples = some hist ∧ hist.length = N ∧ hist = List.replicate N 0
      ∧ (∀ xs outs s', filterAll s xs = some (outs, s') →
          getCoefficients s' = some coeff ∧ coeff.length = N)
      ∧ (1 ≤ N → ∀ xs, ∃ outs s', filterAll s xs = some (outs, s')
          ∧ getCoefficients s' = some coeff) := by
  obtain ⟨s, hinit, hr, -⟩ := init_new_ok m junk junkInt N hmax ft wt fmin fmax s0 hnew
  refine ⟨s, _, _, hinit, hr.coeffs, hr.clen, hr.samples, hr.hlen, rfl, ?_, ?_⟩
  · intro xs outs s' hrun
    have h := (filterAll_preserves xs s s' outs hrun).1
    exact ⟨by unfold getCoefficients; rw [h, hr.coeffs], hr.clen⟩
  · intro hN xs
    exact ⟨_, _, filterAll_ready hN hmax xs s 0 _ hr (by omega), hr.coeffs⟩

/-- Witness for C9 with two taps. -/
theorem init_length_invariant_witness :
    ∃ s coeff hist, init (⟨3, fun x => x, fun x => x⟩ : MathEnv ℚ)
        ⟨true, true, true, true, 9, 9⟩
        ({ p_Coefficients := none, p_Samples := none, p_Window := none,
           p_MinFrequency := 0, p_MaxFrequency := 0, p_Index := 0, p_Taps := 2,
           p_FilterType := filterType.BANDSTOP_FILTER,
           p_WindowType := windowType.BLACKMAN } : State ℚ)
        = some (ResultCodes.RESULT_SUCCESS, s)
      ∧ getCoefficients s = some coeff ∧ coeff.length = 2
      ∧ s.p_Samples = some hist ∧ hist.length = 2 ∧ hist = List.replicate 2 0
      ∧ (∀ xs outs s', filterAll s xs = some (outs, s') →
          getCoefficients s' = some coeff ∧ coeff.length = 2)
      ∧ (1 ≤ 2 → ∀ xs, ∃ outs s', filterAll s xs = some (outs, s')
          ∧ getCoefficients s' = some coeff) :=
  init_length_invariant _ 9 9 2 filterType.BANDSTOP_FILTER windowType.BLACKMAN 0 0 _
    (by decide) (by unfold new; rw [floatToInt_zero]; rfl)

/-- C10, evaluated: with four taps `windowTriangle` writes the weights `1, 1, 1, 1`, not
`0.25, 0.75, 0.75, 0.25`.  The quotient `(i - (N-1)/2) / (N/2)` is computed in `float`, but
the unqualified `abs` is `int abs(int)`: the quotient, which lies strictly between `-1` and
`1`, is converted to the `int` `0`, and `1 - 0` is stored.  After `init` with the `TRIANGLE`
window every coefficient is therefore the designer's tap times `1`: here the high-pass taps
for the stored frequency `0` are `sinc(-2), sinc(-1), sinc(0), sinc(1)` and come out
unchanged. -/
theorem triangle_window_all_ones (m : MathEnv α) (junk : α) (junkInt : Int) :
    windowTriangle
        ({ p_Coefficients := some [0, 0, 0, 0], p_Samples := some [0, 0, 0, 0],
           p_Window := some [0, 0, 0, 0], p_MinFrequency := 0, p_MaxFrequency := 0,
           p_Index := 0, p_Taps := 4, p_FilterType := filterType.HIGHPASS_FILTER,
           p_WindowType := windowType.TRIANGLE } : State α)
      = some { p_Coefficients := some [0, 0, 0, 0], p_Samples := some [0, 0, 0, 0],
               p_Window := some [1, 1, 1, 1], p_MinFrequency := 0, p_MaxFrequency := 0,
               p_Index := 0, p_Taps := 4, p_FilterType := filterType.HIGHPASS_FILTER,
               p_WindowType := windowType.TRIANGLE }
    ∧ ([1, 1, 1, 1] : List α) ≠ [0.25, 0.75, 0.75, 0.25]
    ∧ ∃ s, init m ⟨true, true, true, true, junk, junkInt⟩
          ({ p_Coefficients := none, p_Samples := none, p_Window := none,
             p_MinFrequency := 0, p_MaxFrequency := 0, p_Index := 0, p_Taps := 4,
             p_FilterType := filterType.HIGHPASS_FILTER,
             p_WindowType := windowType.TRIANGLE } : State α)
          = some (ResultCodes.RESULT_SUCCESS, s)
        ∧ getCoefficients s
          = some [sinc m (-2), sinc m (-1), sinc m 0, sinc m 1] := by
  refine ⟨?_, ?_, ?_⟩
  · rw [windowTriangle_ok m _ 4 rfl [0, 0, 0, 0] rfl rfl]
    simp only [List.range_succ, List.range_zero, List.nil_append, List.map_cons,
      List.map_nil, List.cons_append]
    rw [weightValue_triangle m 4 0 (by decide), weightValue_triangle m 4 1 (by decide),
      weightValue_triangle m 4 2 (by decide), weightValue_triangle m 4 3 (by decide)]
  · intro h
    have h1 : (1 : α) = 0.25 := by
      simpa using congrArg (fun l => l.headD 0) h
    norm_num at h1
  · refine ⟨_, init_ok m _ _ 4 (by decide) rfl rfl rfl rfl rfl, ?_⟩
    unfold getCoefficients
    simp only [List.range_succ, List.range_zero, List.nil_append, List.map_cons,
      List.map_nil, List.cons_append]
    rw [weightValue_triangle m 4 0 (by decide), weightValue_triangle m 4 1 (by decide),
      weightValue_triangle m 4 2 (by decide), weightValue_triangle m 4 3 (by decide)]
    have hd : Int.tdiv ((4 : Nat) : Int) 2 = 2 := by decide
    simp only [tapValue, hd]
    norm_num

end Initialised

section Allocation

/-- C8: with each `malloc` of `init` allowed to fail, `init` returns
`MEMORY_ALLOCATION_ERROR` as soon as the allocation of the coefficients, of the samples or of
the window fails, and the state it leaves is the state before the call with only the
pointers assigned so far changed — a null pointer for the failed buffer, memory as `malloc`
returned it for the buffers obtained before — so neither the designer nor the window shaper
has run (the outcome does not depend on `sinf`, `cosf`, `mPI` or on the designer's own
allocation).  If every allocation succeeds, `init` returns `RESULT_SUCCESS` for every filter
type and every window type held by the state. -/
theorem init_allocation_result {α : Type} [LinearOrderedField α] [FloorRing α]
    (m : MathEnv α)
    (a : Allocs α) (s : State α) (hmax : s.p_Taps ≤ 2147483647) :
    (a.coefficients = false →
        init m a s = some (ResultCodes.MEMORY_ALLOCATION_ERROR,
          { s with p_Coefficients := none }))
    ∧ (a.coefficients = true → a.samples = false →
        init m a s = some (ResultCodes.MEMORY_ALLOCATION_ERROR,
          { s with p_Coefficients := some (List.replicate (elemCount s.p_Taps) a.junk)
                   p_Samples := none }))
    ∧ (a.coefficients = true → a.samples = true → a.window = false →
        init m a s = some (ResultCodes.MEMORY_ALLOCATION_ERROR,
          { s with p_Coefficients := some (List.replicate (elemCount s.p_Taps) a.junk)
                   p_Samples := some (List.replicate (elemCount s.p_Taps) a.junk)
                   p_Window := none }))
    ∧ (a.coefficients = true → a.samples = true → a.window = true → a.n = true →
        ∃ s', init m a s = some (ResultCodes.RESULT_SUCCESS, s')
          ∧ s'.p_FilterType = s.p_FilterType ∧ s'.p_WindowType = s.p_WindowType) := by
  refine ⟨?_, ?_, ?_, ?_⟩
  · intro hc
    simp [init, malloc, hc]
  · intro hc hs
    simp [init, malloc, hc, hs]
  · intro hc hs hw
    simp [init, malloc, hc, hs, hw]
  · intro hc hs hw hn
    by_cases hneg : s.p_Taps < 0
    · exact init_ok_neg m a s hneg hc hs hw hn
    · have ht : s.p_Taps = ((s.p_Taps.toNat : Nat) : Int) := by omega
      exact ⟨_, init_ok m a s s.p_Taps.toNat (by omega) ht hc hs hw hn, rfl, rfl⟩

/-- Witness for C8: four taps, the allocation of the samples failing. -/
theorem init_allocation_result_witness :
    init (⟨3, fun x => x, fun x => x⟩ : MathEnv ℚ) ⟨true, false, true, true, 9, 9⟩
        ({ p_Coefficients := none, p_Samples := none, p_Window := none,
           p_MinFrequency := 0, p_MaxFrequency := 0, p_Index := 0, p_Taps := 4,
           p_FilterType := filterType.HIGHPASS_FILTER,
           p_WindowType := windowType.HAMMING } : State ℚ)
      = some (ResultCodes.MEMORY_ALLOCATION_ERROR,
          { p_Coefficients := some [9, 9, 9, 9], p_Samples := none, p_Window := none,
            p_MinFrequency := 0, p_MaxFrequency := 0, p_Index := 0, p_Taps := 4,
            p_FilterType := filterType.HIGHPASS_FILTER,
            p_WindowType := windowType.HAMMING }) :=
  (init_allocation_result (⟨3, fun x => x, fun x => x⟩ : MathEnv ℚ)
    ⟨true, false, true, true, 9, 9⟩ _ (by decide)).2.1 rfl rfl

end Allocation

/-! ## The designers called directly -/

section DesignersClosed

variable {α : Type} [LinearOrderedField α]

theorem lowPassCoefficients_ok (m : MathEnv α) (a : Allocs α) (s : State α) (N : Nat)
    (hN : N ≤ 2147483647) (ht : s.p_Taps = (N : Int)) (hn : a.n = true) (c : List α)
    (hc : s.p_Coefficients = some c) (hlen : c.length = N) (f : α) :
    lowPassCoefficients m a s f = some (ResultCodes.RESULT_SUCCESS,
      { s with p_Coefficients := some ((List.range N).map (fun (i : Nat) =>
          tapValue m filterType.LOWPASS_FILTER f f ((i : Int) - Int.tdiv (N : Int) 2))) }) := by
  simp only [lowPassCoefficients, centeredIndices_ok a s N hN ht hn, Option.some_bind,
    writeTaps_ok s N c hc hlen ht _ _ 0, tapValue]

theorem highPassCoefficients_ok (m : MathEnv α) (a : Allocs α) (s : State α) (N : Nat)
    (hN : N ≤ 2147483647) (ht : s.p_Taps = (N : Int)) (hn : a.n = true) (c : List α)
    (hc : s.p_Coefficients = some c) (hlen : c.length = N) (f : α) :
    highPassCoefficients m a s f = some (ResultCodes.RESULT_SUCCESS,
      { s with p_Coefficients := some ((List.range N).map (fun (i : Nat) =>
          tapValue m filterType.HIGHPASS_FILTER f f ((i : Int) - Int.tdiv (N : Int) 2))) }) := by
  simp only [highPassCoefficients, centeredIndices_ok a s N hN ht hn, Option.some_bind,
    writeTaps_ok s N c hc hlen ht _ _ 0, tapValue]

theorem bandPassCoefficients_ok (m : MathEnv α) (a : Allocs α) (s : State α) (N : Nat)
    (hN : N ≤ 2147483647) (ht : s.p_Taps = (N : Int)) (hn : a.n = true) (c : List α)
    (hc : s.p_Coefficients = some c) (hlen : c.length = N) (fmin fmax : α) :
    bandPassCoefficients m a s fmin fmax = some (ResultCodes.RESULT_SUCCESS,
      { s with p_Coefficients := some ((List.range N).map (fun (i : Nat) =>
          tapValue m filterType.BANDPASS_FILTER fmin fmax
            ((i : Int) - Int.tdiv (N : Int) 2))) }) := by
  simp only [bandPassCoefficients, centeredIndices_ok a s N hN ht hn, Option.some_bind,
    writeTaps_ok s N c hc hlen ht _ _ 0, tapValue]

theorem bandStopCoefficients_ok (m : MathEnv α) (a : Allocs α) (s : State α) (N : Nat)
    (hN : N ≤ 2147483647) (ht : s.p_Taps = (N : Int)) (hn : a.n = true) (c : List α)
    (hc : s.p_Coefficients = some c) (hlen : c.length = N) (fmin fmax : α) :
    bandStopCoefficients m a s fmin fmax = some (ResultCodes.RESULT_SUCCESS,
      { s with p_Coefficients := some ((List.range N).map (fun (i : Nat) =>
          tapValue m filterType.BANDSTOP_FILTER fmin fmax
            ((i : Int) - Int.tdiv (N : Int) 2))) }) := by
  simp only [bandStopCoefficients, centeredIndices_ok a s N hN ht hn, Option.some_bind,
    writeTaps_ok s N c hc hlen ht _ _ 0, tapValue]

/-- The centred index `i - int(N / 2)` as a sample value. -/
theorem centred_cast (N i : Nat) :
    (((i : Int) - Int.tdiv (N : Int) 2 : Int) : α) = (i : α) - ((N / 2 : Nat) : α) := by
  have h : Int.tdiv (N : Int) 2 = ((N / 2 : Nat) : Int) := by
    rw [Int.tdiv_eq_ediv (by omega) (by omega)]
    omega
  rw [h, Int.cast_sub, Int.cast_natCast, Int.cast_natCast]

theorem getElem?_map_range {β : Type} (N : Nat) (f : Nat → β) (i : Nat) (hi : i < N) :
    ((List.range N).map f)[i]? = some (f i) := by
  simp [hi]

end DesignersClosed

section BandStop

/-- C11: on a state with `N ≥ 1` taps (`N` an `int`) and an allocated coefficient buffer, for
every pair of cut-offs handed to the two designers and every `i < N`, the tap written by
`bandStopCoefficients` is the tap written by `bandPassCoefficients` plus
`sinc(i - floor(N/2))`; both use the centred index `i - floor(N/2)`, and `sinc(0) = 1`. -/
theorem bandstop_is_bandpass_plus_sinc {α : Type} [LinearOrderedField α] (m : MathEnv α)
    (a : Allocs α) (s : State α) (N : Nat) (buf : List α) (fmin fmax : α) (hN : 1 ≤ N)
    (hmax : N ≤ 2147483647) (ht : s.p_Taps = (N : Int)) (hn : a.n = true)
    (hc : s.p_Coefficients = some buf) (hlen : buf.length = N) :
    ∃ sp ss bp bs,
      bandPassCoefficients m a s fmin fmax = some (ResultCodes.RESULT_SUCCESS, sp)
      ∧ bandStopCoefficients m a s fmin fmax = some (ResultCodes.RESULT_SUCCESS, ss)
      ∧ sp.p_Coefficients = some bp ∧ ss.p_Coefficients = some bs
      ∧ bp.length = N ∧ bs.length = N
      ∧ (∀ i : Nat, i < N →
          bp[i]? = some (2 * fmin * sinc m (2 * fmin * ((i : α) - ((N / 2 : Nat) : α)))
            - 2 * fmax * sinc m (2 * fmax * ((i : α) - ((N / 2 : Nat) : α)))))
      ∧ (∀ i : Nat, i < N →
          bs[i]? = some (bp.getD i 0 + sinc m ((i : α) - ((N / 2 : Nat) : α))))
      ∧ sinc m 0 = 1 := by
  have _ := hN
  refine ⟨_, _, _, _, bandPassCoefficients_ok m a s N hmax ht hn buf hc hlen fmin fmax,
    bandStopCoefficients_ok m a s N hmax ht hn buf hc hlen fmin fmax, rfl, rfl, by simp,
    by simp, ?_, ?_, by simp [sinc]⟩
  · intro i hi
    rw [getElem?_map_range N _ i hi]
    simp only [tapValue, centred_cast]
  · intro i hi
    rw [getElem?_map_range N _ i hi, getD_map_range N _ 0 i hi]
    simp only [tapValue, centred_cast]

/-- Witness for C11: three taps over the rationals, cut-offs `1/4` and `1/3`. -/
theorem bandstop_is_bandpass_plus_sinc_witness :
    ∃ sp ss bp bs,
      bandPassCoefficients (⟨3, fun x => x, fun x => x⟩ : MathEnv ℚ)
          ⟨true, true, true, true, 9, 9⟩
          ({ p_Coefficients := some [0, 0, 0], p_Samples := some [0, 0, 0],
             p_Window := some [0, 0, 0], p_MinFrequency := 0, p_MaxFrequency := 0,
             p_Index := 0, p_Taps := 3, p_FilterType := filterType.BANDSTOP_FILTER,
             p_WindowType := windowType.HAMMING } : State ℚ) (1 / 4) (1 / 3)
        = some (ResultCodes.RESULT_SUCCESS, sp)
      ∧ bandStopCoefficients (⟨3, fun x => x, fun x => x⟩ : MathEnv ℚ)
          ⟨true, true, true, true, 9, 9⟩
          ({ p_Coefficients := some [0, 0, 0], p_Samples := some [0, 0, 0],
             p_Window := some [0, 0, 0], p_MinFrequency := 0, p_MaxFrequency := 0,
             p_Index := 0, p_Taps := 3, p_FilterType := filterType.BANDSTOP_FILTER,
             p_WindowType := windowType.HAMMING } : State ℚ) (1 / 4) (1 / 3)
        = some (ResultCodes.RESULT_SUCCESS, ss)
      ∧ sp.p_Coefficients = some bp ∧ ss.p_Coefficients = some bs
      ∧ bp.length = 3 ∧ bs.length = 3
      ∧ (∀ i : Nat, i < 3 →
          bp[i]? = some (2 * (1 / 4) * sinc ⟨3, fun x => x, fun x => x⟩
                (2 * (1 / 4) * ((i : ℚ) - ((3 / 2 : Nat) : ℚ)))
            - 2 * (1 / 3) * sinc ⟨3, fun x => x, fun x => x⟩
                (2 * (1 / 3) * ((i : ℚ) - ((3 / 2 : Nat) : ℚ)))))
      ∧ (∀ i : Nat, i < 3 →
          bs[i]? = some (bp.getD i 0
            + sinc ⟨3, fun x => x, fun x => x⟩ ((i : ℚ) - ((3 / 2 : Nat) : ℚ))))
      ∧ sinc (⟨3, fun x => x, fun x => x⟩ : MathEnv ℚ) 0 = 1 :=
  bandstop_is_bandpass_plus_sinc _ _ _ 3 [0, 0, 0] (1 / 4) (1 / 3) (by decide) (by decide)
    rfl rfl rfl rfl

end BandStop

/-! ## Guarded division -/

section Guarded

variable {α : Type}

theorem foldlM_liftAccess {β : Type} (l : List Nat) (fE : β → Nat → Except Fault β)
    (fO : β → Nat → Option β) (h : ∀ i ∈ l, ∀ b, fE b i = liftAccess (fO b i)) :
    ∀ b, l.foldlM fE b = liftAccess (l.foldlM fO b) := by
  induction l with
  | nil => intro b; rfl
  | cons i l ih =>
    intro b
    simp only [List.foldlM_cons]
    rw [h i (List.mem_cons_self _ _) b]
    cases hb : fO b i with
    | none => rfl
    | some b1 =>
      simp only [liftAccess]
      exact ih (fun j hj b => h j (List.mem_cons_of_mem _ hj) b) b1

/-- When no weight faults, the guarded shaper does what the unguarded one does. -/
theorem writeWindowChecked_ok (s : State α) (N : Nat) (w : List α) (hw : s.p_Window = some w)
    (ht : s.p_Taps = (N : Int)) (f : Int → α)
    (g : Int → Except Fault α) (hg : ∀ i : Nat, i < N → g (i : Int) = Except.ok (f (i : Int))) :
    writeWindowChecked s g = liftAccess (writeWindow s f) := by
  unfold writeWindowChecked writeWindow forLoop
  rw [hw, ht]
  simp only [Int.toNat_ofNat, Option.some_bind]
  rw [foldlM_liftAccess (List.range N) _
    (fun b (i : Nat) => store b (i : Int) (f (i : Int)))]
  · cases (List.range N).foldlM (fun b (i : Nat) => store b (i : Int) (f (i : Int))) w <;> rfl
  · intro i hi b
    rw [hg i (List.mem_range.mp hi)]
    rfl

/-- With one tap, a weight that faults at index `0` faults the shaper. -/
theorem writeWindowChecked_one (s : State α) (w : List α) (hw : s.p_Window = some w)
    (ht : s.p_Taps = 1) (g : Int → Except Fault α) (e : Fault)
    (hg : g 0 = Except.error e) :
    writeWindowChecked s g = Except.error e := by
  unfold writeWindowChecked
  rw [hw, ht]
  have : (1 : Int).toNat = 1 := rfl
  simp only [this, List.range_succ, List.range_zero, List.nil_append, List.foldlM_cons,
    List.foldlM_nil, Nat.cast_zero, hg]
  rfl

end Guarded

section DivisionGuards

variable {α : Type} [LinearOrderedField α]

theorem divChecked_ok (x y : α) (hy : y ≠ 0) : divChecked x y = Except.ok (x / y) := by
  unfold divChecked
  rw [if_neg hy]

theorem sincChecked_ok (m : MathEnv α) (hpi : m.mPI ≠ 0) (x : α) :
    sincChecked m x = Except.ok (sinc m x) := by
  unfold sincChecked sinc
  by_cases hx : x = 0
  · rw [if_pos hx, if_pos hx]
  · rw [if_neg hx, if_neg hx, divChecked_ok _ _ (mul_ne_zero hpi hx)]

theorem windowTriangleChecked_ok [FloorRing α] (m : MathEnv α) (s : State α) (N : Nat)
    (w : List α) (ht : s.p_Taps = (N : Int)) (hw : s.p_Window = some w)
    (hlen : w.length = N) :
    ∃ s3, windowTriangle s = some s3 ∧ windowTriangleChecked s = Except.ok s3 := by
  refine ⟨_, windowTriangle_ok m s N ht w hw hlen, ?_⟩
  unfold windowTriangleChecked
  rw [writeWindowChecked_ok s N w hw ht
    (fun i => weightValue m windowType.TRIANGLE (N : Int) i),
    writeWindow_ok s N w hw hlen ht _ 0]
  · rfl
  · intro i hi
    have h2 : (2 : α) ≠ 0 := two_ne_zero
    have hN : (((N : Int) : α) / 2) ≠ 0 := by
      have : ((N : Int) : α) ≠ 0 := Int.cast_ne_zero.mpr (by omega)
      exact div_ne_zero this h2
    have hq := triangle_quotient_bounds (α := α) N i hi
    simp only [ht, divChecked_ok _ _ h2, divChecked_ok _ _ hN, Except.bind,
      floatToInt_small _ hq.1 hq.2, liftConversion, intAbs]
    rw [if_neg (by decide), weightValue_triangle m N i hi]
    norm_num

theorem windowHammingChecked_ok (m : MathEnv α) (s : State α) (N : Nat) (w : List α)
    (ht : s.p_Taps = (N : Int)) (hw : s.p_Window = some w) (hlen : w.length = N)
    (hN : N ≠ 1) :
    ∃ s1, windowHamming m s = some s1 ∧ windowHammingChecked m s = Except.ok s1 := by
  refine ⟨_, by unfold windowHamming; exact writeWindow_ok s N w hw hlen ht _ 0, ?_⟩
  unfold windowHammingChecked
  rw [writeWindowChecked_ok s N w hw ht
    (fun i => 0.54 - 0.46 * m.cosf (2 * m.mPI * (i : α) / ((s.p_Taps - 1 : Int) : α))),
    writeWindow_ok s N w hw hlen ht _ 0]
  · rfl
  · intro i _
    have hd : (((s.p_Taps - 1 : Int) : α)) ≠ 0 := by
      rw [ht]; exact Int.cast_ne_zero.mpr (by omega)
    simp only [divChecked_ok _ _ hd, Except.bind]

theorem windowBlackmanChecked_ok (m : MathEnv α) (s : State α) (N : Nat) (w : List α)
    (ht : s.p_Taps = (N : Int)) (hw : s.p_Window = some w) (hlen : w.length = N)
    (hN : N ≠ 1) :
    ∃ s2, windowBlackman m s = some s2 ∧ windowBlackmanChecked m s = Except.ok s2 := by
  refine ⟨_, by unfold windowBlackman; exact writeWindow_ok s N w hw hlen ht _ 0, ?_⟩
  unfold windowBlackmanChecked
  rw [writeWindowChecked_ok s N w hw ht
    (fun i => 0.42 - 0.5 * m.cosf (2 * m.mPI * (i : α) / ((s.p_Taps - 1 : Int) : α))
      - 0.08 * m.cosf (4 * m.mPI * (i : α) / ((s.p_Taps - 1 : Int) : α))),
    writeWindow_ok s N w hw hlen ht _ 0]
  · rfl
  · intro i _
    have hd : (((s.p_Taps - 1 : Int) : α)) ≠ 0 := by
      rw [ht]; exact Int.cast_ne_zero.mpr (by omega)
    simp only [divChecked_ok _ _ hd, Except.bind]

theorem windowHammingChecked_one (m : MathEnv α) (s : State α) (w : List α)
    (ht : s.p_Taps = 1) (hw : s.p_Window = some w) :
    windowHammingChecked m s = Except.error Fault.ZERO_DIVISOR := by
  unfold windowHammingChecked
  apply writeWindowChecked_one s w hw ht
  simp [divChecked, ht, Except.bind]

theorem windowBlackmanChecked_one (m : MathEnv α) (s : State α) (w : List α)
    (ht : s.p_Taps = 1) (hw : s.p_Window = some w) :
    windowBlackmanChecked m s = Except.error Fault.ZERO_DIVISOR := by
  unfold windowBlackmanChecked
  apply writeWindowChecked_one s w hw ht
  simp [divChecked, ht, Except.bind]

/-- C12: with every division guarded, `sinc` never divides by zero (it returns `1` for `x = 0`
before dividing; `mPI` is not zero), `windowTriangle` never does, and `windowHamming` and
`windowBlackman` run to the same result as unguarded for every tap count other than `1`, in
particular for `N ≥ 2`; with `N = 1` their divisor `N - 1` is zero and the guarded run stops
on it.  So the zero-divisor branch is reached exactly when `N = 1`, and only for those two
windows. -/
theorem division_guards [FloorRing α] (m : MathEnv α) (s : State α) (N : Nat) (w : List α)
    (hpi : m.mPI ≠ 0) (hmax : N ≤ 2147483647) (ht : s.p_Taps = (N : Int))
    (hw : s.p_Window = some w) (hlen : w.length = N) :
    (∀ x, sincChecked m x = Except.ok (sinc m x))
    ∧ (∃ s3, windowTriangle s = some s3 ∧ windowTriangleChecked s = Except.ok s3)
    ∧ (2 ≤ N → ∃ s1 s2, windowHamming m s = some s1
          ∧ windowHammingChecked m s = Except.ok s1
          ∧ windowBlackman m s = some s2 ∧ windowBlackmanChecked m s = Except.ok s2)
    ∧ (N = 1 → ((s.p_Taps - 1 : Int) : α) = 0
          ∧ windowHammingChecked m s = Except.error Fault.ZERO_DIVISOR
          ∧ windowBlackmanChecked m s = Except.error Fault.ZERO_DIVISOR)
    ∧ (windowHammingChecked m s = Except.error Fault.ZERO_DIVISOR ↔ N = 1)
    ∧ (windowBlackmanChecked m s = Except.error Fault.ZERO_DIVISOR ↔ N = 1) := by
  have _ := hmax
  have h1 : N = 1 → s.p_Taps = 1 := fun h => by rw [ht, h]; rfl
  refine ⟨sincChecked_ok m hpi, windowTriangleChecked_ok m s N w ht hw hlen, ?_, ?_, ?_, ?_⟩
  · intro hN
    obtain ⟨s1, e1, e2⟩ := windowHammingChecked_ok m s N w ht hw hlen (by omega)
    obtain ⟨s2, e3, e4⟩ := windowBlackmanChecked_ok m s N w ht hw hlen (by omega)
    exact ⟨s1, s2, e1, e2, e3, e4⟩
  · intro hN
    refine ⟨by rw [h1 hN]; simp, windowHammingChecked_one m s w (h1 hN) hw,
      windowBlackmanChecked_one m s w (h1 hN) hw⟩
  · constructor
    · intro h
      by_contra hN
      obtain ⟨s1, _, e2⟩ := windowHammingChecked_ok m s N w ht hw hlen hN
      rw [e2] at h
      exact absurd h (by simp)
    · intro hN
      exact windowHammingChecked_one m s w (h1 hN) hw
  · constructor
    · intro h
      by_contra hN
      obtain ⟨s2, _, e2⟩ := windowBlackmanChecked_ok m s N w ht hw hlen hN
      rw [e2] at h
      exact absurd h (by simp)
    · intro hN
      exact windowBlackmanChecked_one m s w (h1 hN) hw

/-- Witness for C12: one tap, where the guarded Hamming and Blackman shapers stop. -/
theorem division_guards_witness :
    windowHammingChecked (⟨3, fun x => x, fun x => x⟩ : MathEnv ℚ)
        ({ p_Coefficients := some [0], p_Samples := some [0], p_Window := some [0],
           p_MinFrequency := 0, p_MaxFrequency := 0, p_Index := 0, p_Taps := 1,
           p_FilterType := filterType.LOWPASS_FILTER,
           p_WindowType := windowType.HAMMING } : State ℚ)
      = Except.error Fault.ZERO_DIVISOR :=
  ((division_guards (⟨3, fun x => x, fun x => x⟩ : MathEnv ℚ) _ 1 [0] (by decide) (by decide)
    rfl rfl rfl).2.2.2.1 rfl).2.1

end DivisionGuards

/-! ## The input-output relation of the convolver -/

section Relation

theorem foldl_add_eq_sum {α : Type} [AddCommMonoid α] (f : Nat → α) (N : Nat) :
    (List.range N).foldl (fun acc k => acc + f k) 0 = ∑ k in Finset.range N, f k := by
  induction N with
  | zero => simp
  | succ n ih =>
    rw [List.range_succ, List.foldl_append, ih, Finset.sum_range_succ]
    rfl

/-- The sample a call reads at position `k` of its sum, in terms of the stream: the sample
just written for `k = 0`, the sample `x_{t-N+k}` for `k ≥ 1`. -/
theorem track_read {α : Type} [Zero α] (N : Nat) (hN : 1 ≤ N) (xs : List α) (t : Nat)
    (ht : t < xs.length) (k : Nat) (hk : k < N) :
    (track N (List.replicate N (0 : α), 0) (xs.take (t + 1))).1.getD ((t % N + k) % N) 0
      = if k = 0 then sampleAt xs (t : Int)
        else sampleAt xs ((t : Int) - (N : Int) + (k : Int)) := by
  have hlen : (xs.take (t + 1)).length = t + 1 := by
    rw [List.length_take]; omega
  have key : ∀ j, j < N →
      (track N (List.replicate N (0 : α), 0) (xs.take (t + 1))).1.getD
        (((t + 1) % N + j) % N) 0
        = sampleAt xs (((t + 1 : Nat) : Int) - (N : Int) + (j : Int)) := by
    intro j hj
    have h := track_history N hN (xs.take (t + 1)) j hj
    rw [hlen] at h
    rw [h]
    unfold sampleAt
    by_cases hneg : ((t + 1 : Nat) : Int) - (N : Int) + (j : Int) < 0
    · rw [if_pos hneg, if_pos hneg]
    · rw [if_neg hneg, if_neg hneg]
      have hlt : (((t + 1 : Nat) : Int) - (N : Int) + (j : Int)).toNat < t + 1 := by omega
      rw [List.getD_eq_getElem?_getD, List.getD_eq_getElem?_getD, List.getElem?_take_of_lt hlt]
  by_cases hk0 : k = 0
  · rw [if_pos hk0]
    have h := key (N - 1) (by omega)
    have e : ((t + 1) % N + (N - 1)) % N = (t % N + k) % N := by
      rw [Nat.mod_add_mod, Nat.mod_add_mod, hk0]
      have : t + 1 + (N - 1) = t + 0 + N := by omega
      rw [this, Nat.add_mod_right]
    have e2 : ((t + 1 : Nat) : Int) - (N : Int) + ((N - 1 : Nat) : Int) = (t : Int) := by omega
    rw [e, e2] at h
    exact h
  · rw [if_neg hk0]
    have h := key (k - 1) (by omega)
    have e : ((t + 1) % N + (k - 1)) % N = (t % N + k) % N := by
      rw [Nat.mod_add_mod, Nat.mod_add_mod]
      have : t + 1 + (k - 1) = t + k := by omega
      rw [this]
    have e2 : ((t + 1 : Nat) : Int) - (N : Int) + ((k - 1 : Nat) : Int)
        = (t : Int) - (N : Int) + (k : Int) := by omega
    rw [e, e2] at h
    exact h

/-- C13: for `N ≥ 1` taps, coefficients `c` and a stream `x_0, x_1, ...` fed from a zero history
with cursor `0`, output `t` is `c[0] * x_t + Σ_{j=1}^{N-1} c[j] * x_{t-N+j}` with `x_u = 0` for
`u < 0`: `c[0]` weights the newest sample, `c[1]` the oldest retained one (`x_{t-N+1}`) and
`c[N-1]` the one before the newest (`x_{t-1}`). -/
theorem convolver_relation {α : Type} [CommSemiring α] (s : State α) (N : Nat)
    (coeff xs : List α) (t : Nat) (hr : Ready s N 0 (List.replicate N 0) coeff) (hN : 1 ≤ N)
    (hmax : N ≤ 2147483647) (ht : t < xs.length) :
    ∃ outs s', filterAll s xs = some (outs, s')
      ∧ outs.length = xs.length
      ∧ outs[t]? = some (coeff.getD 0 0 * sampleAt xs (t : Int)
          + ∑ j in Finset.Ico 1 N,
              coeff.getD j 0 * sampleAt xs ((t : Int) - (N : Int) + (j : Int))) := by
  refine ⟨_, _, filterAll_ready hN hmax xs s 0 _ hr (by omega), outputs_length _ _ _ _, ?_⟩
  rw [outputs_getElem? N coeff xs _ t ht, track_cursor, List.length_take,
    Nat.min_eq_left (by omega)]
  congr 1
  unfold convolve
  have hfold : (List.range N).foldl
      (fun acc k => acc
        + (track N (List.replicate N (0 : α), 0) (xs.take (t + 1))).1.getD ((t % N + k) % N) 0
          * coeff.getD k 0) 0
      = (List.range N).foldl
          (fun acc (k : Nat) => acc + (if k = 0 then sampleAt xs (t : Int)
              else sampleAt xs ((t : Int) - (N : Int) + (k : Int))) * coeff.getD k 0) 0 := by
    apply List.foldl_ext
    intro acc k hk
    rw [track_read N hN xs t ht k (List.mem_range.mp hk)]
  rw [hfold, foldl_add_eq_sum, Finset.range_eq_Ico, Finset.sum_eq_sum_Ico_succ_bot (by omega)]
  simp only [if_true, Nat.cast_zero]
  congr 1
  · exact mul_comm _ _
  · apply Finset.sum_congr rfl
    intro j hj
    have hj1 : j ≠ 0 := by
      have := (Finset.mem_Ico.mp hj).1
      omega
    rw [if_neg hj1, mul_comm]

/-- Witness for C13: three taps `1, 2, 3` and the stream `10, 20, 30, 40, 50`, output `4`. -/
theorem convolver_relation_witness :
    ∃ outs s', filterAll (readyState [(1 : Int), 2, 3] filterType.LOWPASS_FILTER
        windowType.HAMMING 0 0) [10, 20, 30, 40, 50] = some (outs, s')
      ∧ outs.length = ([10, 20, 30, 40, 50] : List Int).length
      ∧ outs[4]? = some (([1, 2, 3] : List Int).getD 0 0
            * sampleAt [10, 20, 30, 40, 50] ((4 : Nat) : Int)
          + ∑ j in Finset.Ico 1 3,
              ([1, 2, 3] : List Int).getD j 0
                * sampleAt [10, 20, 30, 40, 50] (((4 : Nat) : Int) - ((3 : Nat) : Int) + (j : Int))) :=
  convolver_relation _ 3 [1, 2, 3] [10, 20, 30, 40, 50] 4
    (ready_readyState [(1 : Int), 2, 3] _ _ 0 0) (by decide) (by decide) (by decide)

end Relation

/-! ## Frequencies stored in `int` members -/

section Truncation

variable {α : Type} [LinearOrderedField α] [FloorRing α]

theorem floatToInt_eq (x : α) (t : Int) (h : floatToInt x = some t) :
    t = if 0 ≤ x then Int.floor x else Int.ceil x := by
  unfold floatToInt at h
  by_cases hr : -2147483648 ≤ (if 0 ≤ x then Int.floor x else Int.ceil x)
      ∧ (if 0 ≤ x then Int.floor x else Int.ceil x) ≤ INT_MAX
  · rw [if_pos hr] at h
    exact (Option.some.inj h).symm
  · rw [if_neg hr] at h
    exact absurd h (by simp)

/-- C14: the constructor stores both cut-off frequencies in `int` members, truncated toward
zero; hence for `N ≥ 2` taps, any window type and any `minFrequency` `f` with
`0 < f < 0.5`, the stored frequency is `0` and a `LOWPASS_FILTER` has all-zero coefficients
after a successful `init`, whatever `f` is. -/
theorem lowpass_coefficients_all_zero (m : MathEnv α) (junk : α) (junkInt : Int) (N : Nat)
    (wt : windowType) (f fmax : α) (s0 : State α) (hN : 2 ≤ N) (hmax : N ≤ 2147483647)
    (hf0 : 0 < f) (hf1 : f < 0.5)
    (hnew : new (N : Int) filterType.LOWPASS_FILTER wt f fmax = some s0) :
    s0.p_MinFrequency = 0
      ∧ s0.p_MaxFrequency = (if 0 ≤ fmax then Int.floor fmax else Int.ceil fmax)
      ∧ ∃ s, init m ⟨true, true, true, true, junk, junkInt⟩ s0
            = some (ResultCodes.RESULT_SUCCESS, s)
          ∧ getCoefficients s = some (List.replicate N 0) := by
  have _ := hN
  obtain ⟨s, hinit, hr, -⟩ :=
    init_new_ok m junk junkInt N hmax filterType.LOWPASS_FILTER wt f fmax s0 hnew
  obtain ⟨imin, imax, h1, h2, rfl⟩ := new_eq _ _ _ _ _ _ hnew
  have hz : imin = 0 := by
    have h := floatToInt_unit f (le_of_lt hf0) (lt_trans hf1 (by norm_num))
    rw [h1] at h
    exact Option.some.inj h
  subst hz
  refine ⟨rfl, floatToInt_eq fmax imax h2, s, hinit, ?_⟩
  unfold getCoefficients
  rw [hr.coeffs]
  congr 1
  apply List.ext_getElem?
  intro i
  by_cases hi : i < N
  · simp [hi, tapValue, List.getElem?_replicate]
  · simp [hi, List.getElem?_replicate, Nat.le_of_not_lt hi]

/-- Witness for C14: two taps, `minFrequency = 1/4`, Blackman window. -/
theorem lowpass_coefficients_all_zero_witness :
    ({ p_Coefficients := none, p_Samples := none, p_Window := none,
       p_MinFrequency := 0, p_MaxFrequency := 0, p_Index := 0, p_Taps := 2,
       p_FilterType := filterType.LOWPASS_FILTER,
       p_WindowType := windowType.BLACKMAN } : State ℚ).p_MinFrequency = 0
      ∧ (0 : Int) = (if 0 ≤ (0 : ℚ) then Int.floor (0 : ℚ) else Int.ceil (0 : ℚ))
      ∧ ∃ s, init (⟨3, fun x => x, fun x => x⟩ : MathEnv ℚ) ⟨true, true, true, true, 9, 9⟩
            ({ p_Coefficients := none, p_Samples := none, p_Window := none,
               p_MinFrequency := 0, p_MaxFrequency := 0, p_Index := 0, p_Taps := 2,
               p_FilterType := filterType.LOWPASS_FILTER,
               p_WindowType := windowType.BLACKMAN } : State ℚ)
            = some (ResultCodes.RESULT_SUCCESS, s)
          ∧ getCoefficients s = some (List.replicate 2 0) :=
  lowpass_coefficients_all_zero _ 9 9 2 windowType.BLACKMAN (1 / 4) 0 _ (by decide)
    (by decide) (by norm_num) (by norm_num)
    (by unfold new; rw [floatToInt_unit (1 / 4 : ℚ) (by norm_num) (by norm_num),
      floatToInt_zero]; rfl)

end Truncation

/-! ## Exact real arithmetic -/

section RealArithmetic

/-- Over the reals with `mPI = π` and `sinf = sin`, `sinc` vanishes at every non-zero integer
and is `1` at `0`. -/
theorem sinc_intCast (m : MathEnv ℝ) (hpi : m.mPI = Real.pi) (hsin : m.sinf = Real.sin)
    (n : Int) : sinc m (n : ℝ) = if n = 0 then 1 else 0 := by
  unfold sinc
  by_cases hn : n = 0
  · simp [hn]
  · have hne : (n : ℝ) ≠ 0 := Int.cast_ne_zero.mpr hn
    rw [if_neg hne, if_neg hn, hpi, hsin, mul_comm, Real.sin_int_mul_pi, zero_div]

/-- Over the reals with `sinf = sin`, `sinc` is even. -/
theorem sinc_neg (m : MathEnv ℝ) (hsin : m.sinf = Real.sin) (x : ℝ) :
    sinc m (-x) = sinc m x := by
  unfold sinc
  by_cases hx : x = 0
  · simp [hx]
  · have hnx : -x ≠ 0 := neg_ne_zero.mpr hx
    rw [if_neg hx, if_neg hnx, hsin, mul_neg, Real.sin_neg, neg_div_neg_eq]

theorem centred_zero_iff (N i : Nat) :
    ((i : Int) - Int.tdiv (N : Int) 2 = 0) ↔ i = N / 2 := by
  have h : Int.tdiv (N : Int) 2 = ((N / 2 : Nat) : Int) := by
    rw [Int.tdiv_eq_ediv (by omega) (by omega)]
    omega
  rw [h]
  omega

theorem centred_mirror (N i : Nat) (hodd : N % 2 = 1) (hi : i < N) :
    (((N - 1 - i : Nat) : Int) - Int.tdiv (N : Int) 2) = -((i : Int) - Int.tdiv (N : Int) 2) := by
  have h : Int.tdiv (N : Int) 2 = ((N / 2 : Nat) : Int) := by
    rw [Int.tdiv_eq_ediv (by omega) (by omega)]
    omega
  rw [h]
  omega

/-- The raw tap is the same at the centred indices `n` and `-n`. -/
theorem tapValue_neg (m : MathEnv ℝ) (hsin : m.sinf = Real.sin) (ft : filterType)
    (f1 f2 : ℝ) (n : Int) : tapValue m ft f1 f2 (-n) = tapValue m ft f1 f2 n := by
  have e1 : 2 * f1 * (((-n : Int)) : ℝ) = -(2 * f1 * (n : ℝ)) := by push_cast; ring
  have e2 : 2 * f2 * (((-n : Int)) : ℝ) = -(2 * f2 * (n : ℝ)) := by push_cast; ring
  have e3 : (((-n : Int)) : ℝ) = -(n : ℝ) := by push_cast; ring
  cases ft <;> simp only [tapValue, e1, e2, sinc_neg m hsin] <;>
    rw [e3, sinc_neg m hsin]

theorem mirror_angle_two (d x : ℝ) (hd : d ≠ 0) :
    2 * Real.pi * (d - x) / d = 2 * Real.pi - 2 * Real.pi * x / d := by
  field_simp
  ring

theorem mirror_angle_four (d x : ℝ) (hd : d ≠ 0) :
    4 * Real.pi * (d - x) / d = -(4 * Real.pi * x / d - ((2 : Nat) : ℝ) * (2 * Real.pi)) := by
  push_cast
  field_simp
  ring

/-- Each window weight is the same at `i` and at `N - 1 - i`. -/
theorem weightValue_mirror (m : MathEnv ℝ) (hpi : m.mPI = Real.pi) (hcos : m.cosf = Real.cos)
    (wt : windowType) (N i : Nat) (hN : 2 ≤ N) (hi : i < N) :
    weightValue m wt (N : Int) ((N - 1 - i : Nat) : Int) = weightValue m wt (N : Int) (i : Int) := by
  have hd : (((N : Int) - 1 : Int) : ℝ) ≠ 0 := Int.cast_ne_zero.mpr (by omega)
  have hc : (((N - 1 - i : Nat) : Int) : ℝ) = (((N : Int) - 1 : Int) : ℝ) - ((i : Int) : ℝ) := by
    have : ((N - 1 - i : Nat) : Int) = (N : Int) - 1 - (i : Int) := by omega
    rw [this]; push_cast; ring
  cases wt
  · simp only [weightValue, hpi, hcos, hc, mirror_angle_two _ _ hd, Real.cos_two_pi_sub]
  · rw [weightValue_triangle m N (N - 1 - i) (by omega), weightValue_triangle m N i hi]
  · simp only [weightValue, hpi, hcos, hc, mirror_angle_two _ _ hd, mirror_angle_four _ _ hd,
      Real.cos_two_pi_sub, Real.cos_neg, Real.cos_sub_nat_mul_two_pi]

end RealArithmetic

section Spectral

/-- C15: over the reals with `mPI = π` and `sinf = sin`, `sinc(n) = 0` for every non-zero
integer `n`; hence, on a state with `N ≥ 1` taps and an allocated coefficient buffer, for
every frequency `f` handed to the two designers and every `i < N`, the tap written by
`highPassCoefficients` plus the tap written by `lowPassCoefficients` is `1` at
`i = floor(N/2)` and `0` elsewhere. -/
theorem spectral_inversion (m : MathEnv ℝ) (a : Allocs ℝ) (s : State ℝ) (N : Nat)
    (buf : List ℝ) (f : ℝ) (hpi : m.mPI = Real.pi) (hsin : m.sinf = Real.sin) (hN : 1 ≤ N)
    (hmax : N ≤ 2147483647) (ht : s.p_Taps = (N : Int)) (hn : a.n = true)
    (hc : s.p_Coefficients = some buf) (hlen : buf.length = N) :
    (∀ n : Int, n ≠ 0 → sinc m (n : ℝ) = 0)
    ∧ ∃ sl sh lo hi,
        lowPassCoefficients m a s f = some (ResultCodes.RESULT_SUCCESS, sl)
        ∧ highPassCoefficients m a s f = some (ResultCodes.RESULT_SUCCESS, sh)
        ∧ sl.p_Coefficients = some lo ∧ sh.p_Coefficients = some hi
        ∧ lo.length = N ∧ hi.length = N
        ∧ ∀ i : Nat, i < N →
            ∃ l h, lo[i]? = some l ∧ hi[i]? = some h
              ∧ h + l = if i = N / 2 then 1 else 0 := by
  have _ := hN
  refine ⟨fun n hn0 => by rw [sinc_intCast m hpi hsin, if_neg hn0], _, _, _, _,
    lowPassCoefficients_ok m a s N hmax ht hn buf hc hlen f,
    highPassCoefficients_ok m a s N hmax ht hn buf hc hlen f, rfl, rfl, by simp, by simp, ?_⟩
  intro i hi
  refine ⟨_, _, getElem?_map_range N _ i hi, getElem?_map_range N _ i hi, ?_⟩
  simp only [tapValue, sub_add_cancel, sinc_intCast m hpi hsin, centred_zero_iff]

/-- Witness for C15: three taps, frequency `1/4`. -/
theorem spectral_inversion_witness :
    (∀ n : Int, n ≠ 0 → sinc (⟨Real.pi, Real.sin, Real.cos⟩ : MathEnv ℝ) (n : ℝ) = 0)
    ∧ ∃ sl sh lo hi,
        lowPassCoefficients (⟨Real.pi, Real.sin, Real.cos⟩ : MathEnv ℝ)
            ⟨true, true, true, true, 9, 9⟩
            ({ p_Coefficients := some [0, 0, 0], p_Samples := some [0, 0, 0],
               p_Window := some [0, 0, 0], p_MinFrequency := 0, p_MaxFrequency := 0,
               p_Index := 0, p_Taps := 3, p_FilterType := filterType.HIGHPASS_FILTER,
               p_WindowType := windowType.HAMMING } : State ℝ) (1 / 4)
          = some (ResultCodes.RESULT_SUCCESS, sl)
        ∧ highPassCoefficients (⟨Real.pi, Real.sin, Real.cos⟩ : MathEnv ℝ)
            ⟨true, true, true, true, 9, 9⟩
            ({ p_Coefficients := some [0, 0, 0], p_Samples := some [0, 0, 0],
               p_Window := some [0, 0, 0], p_MinFrequency := 0, p_MaxFrequency := 0,
               p_Index := 0, p_Taps := 3, p_FilterType := filterType.HIGHPASS_FILTER,
               p_WindowType := windowType.HAMMING } : State ℝ) (1 / 4)
          = some (ResultCodes.RESULT_SUCCESS, sh)
        ∧ sl.p_Coefficients = some lo ∧ sh.p_Coefficients = some hi
        ∧ lo.length = 3 ∧ hi.length = 3
        ∧ ∀ i : Nat, i < 3 →
            ∃ l h, lo[i]? = some l ∧ hi[i]? = some h
              ∧ h + l = if i = 3 / 2 then 1 else 0 :=
  spectral_inversion _ _ _ 3 [0, 0, 0] (1 / 4) rfl rfl (by decide) (by decide) rfl rfl rfl rfl

end Spectral

section Symmetry

/-- A list read through `List.map` over `List.range` is symmetric when its generator is. -/
theorem map_range_mirror {β : Type} (N : Nat) (g : Nat → β)
    (hg : ∀ i, i < N → g (N - 1 - i) = g i) (i : Nat) (hi : i < N) :
    ((List.range N).map g)[i]? = ((List.range N).map g)[N - 1 - i]? := by
  rw [getElem?_map_range N g i hi, getElem?_map_range N g (N - 1 - i) (by omega), hg i hi]

theorem tapValue_mirror (m : MathEnv ℝ) (hsin : m.sinf = Real.sin) (ft : filterType)
    (f1 f2 : ℝ) (N i : Nat) (hodd : N % 2 = 1) (hi : i < N) :
    tapValue m ft f1 f2 (((N - 1 - i : Nat) : Int) - Int.tdiv (N : Int) 2)
      = tapValue m ft f1 f2 ((i : Int) - Int.tdiv (N : Int) 2) := by
  rw [centred_mirror N i hodd hi, tapValue_neg m hsin]

/-- C16: over the reals with `mPI = π`, `sinf = sin` and `cosf = cos`, for every odd tap
count `N ≥ 3`: the coefficients left by `init` satisfy `coeff[i] = coeff[N-1-i]` for every
filter type, window type and pair of constructor frequencies; the taps written by each
designer are symmetric for every frequency or pair of frequencies handed to it; and each
window is symmetric (the Triangle window as `windowTriangle` writes it, every weight `1`). -/
theorem linear_phase_symmetry (m : MathEnv ℝ) (a : Allocs ℝ) (s : State ℝ) (N : Nat)
    (cbuf wbuf : List ℝ) (hpi : m.mPI = Real.pi) (hsin : m.sinf = Real.sin)
    (hcos : m.cosf = Real.cos) (hodd : N % 2 = 1) (hN : 3 ≤ N) (hmax : N ≤ 2147483647)
    (ht : s.p_Taps = (N : Int)) (hn : a.n = true) (hc : s.p_Coefficients = some cbuf)
    (hclen : cbuf.length = N) (hw : s.p_Window = some wbuf) (hwlen : wbuf.length = N) :
    (∀ (junk : ℝ) (junkInt : Int) (ft : filterType) (wt : windowType) (fmin fmax : ℝ)
        (s0 : State ℝ), new (N : Int) ft wt fmin fmax = some s0 →
        ∃ sf coeff, init m ⟨true, true, true, true, junk, junkInt⟩ s0
            = some (ResultCodes.RESULT_SUCCESS, sf)
          ∧ getCoefficients sf = some coeff ∧ coeff.length = N
          ∧ ∀ i : Nat, i < N → coeff[i]? = coeff[N - 1 - i]?)
    ∧ (∀ f : ℝ, ∃ sd raw, lowPassCoefficients m a s f = some (ResultCodes.RESULT_SUCCESS, sd)
          ∧ sd.p_Coefficients = some raw ∧ raw.length = N
          ∧ ∀ i : Nat, i < N → raw[i]? = raw[N - 1 - i]?)
    ∧ (∀ f : ℝ, ∃ sd raw, highPassCoefficients m a s f = some (ResultCodes.RESULT_SUCCESS, sd)
          ∧ sd.p_Coefficients = some raw ∧ raw.length = N
          ∧ ∀ i : Nat, i < N → raw[i]? = raw[N - 1 - i]?)
    ∧ (∀ fmin fmax : ℝ, ∃ sd raw,
          bandPassCoefficients m a s fmin fmax = some (ResultCodes.RESULT_SUCCESS, sd)
          ∧ sd.p_Coefficients = some raw ∧ raw.length = N
          ∧ ∀ i : Nat, i < N → raw[i]? = raw[N - 1 - i]?)
    ∧ (∀ fmin fmax : ℝ, ∃ sd raw,
          bandStopCoefficients m a s fmin fmax = some (ResultCodes.RESULT_SUCCESS, sd)
          ∧ sd.p_Coefficients = some raw ∧ raw.length = N
          ∧ ∀ i : Nat, i < N → raw[i]? = raw[N - 1 - i]?)
    ∧ (∃ sw w, windowHamming m s = some sw ∧ sw.p_Window = some w ∧ w.length = N
          ∧ ∀ i : Nat, i < N → w[i]? = w[N - 1 - i]?)
    ∧ (∃ sw w, windowTriangle s = some sw ∧ sw.p_Window = some w ∧ w.length = N
          ∧ ∀ i : Nat, i < N → w[i]? = w[N - 1 - i]?)
    ∧ (∃ sw w, windowBlackman m s = some sw ∧ sw.p_Window = some w ∧ w.length = N
          ∧ ∀ i : Nat, i < N → w[i]? = w[N - 1 - i]?) := by
  have hN2 : 2 ≤ N := by omega
  have hwin : ∀ wt : windowType, ∀ i : Nat, i < N →
      ((List.range N).map (fun (i : Nat) => weightValue m wt (N : Int) (i : Int)))[i]?
        = ((List.range N).map (fun (i : Nat) => weightValue m wt (N : Int) (i : Int)))[N - 1 - i]? :=
    fun wt => map_range_mirror N _ (fun i hi => weightValue_mirror m hpi hcos wt N i hN2 hi)
  have htap : ∀ (ft : filterType) (f1 f2 : ℝ), ∀ i : Nat, i < N →
      ((List.range N).map (fun (i : Nat) =>
          tapValue m ft f1 f2 ((i : Int) - Int.tdiv (N : Int) 2)))[i]?
        = ((List.range N).map (fun (i : Nat) =>
          tapValue m ft f1 f2 ((i : Int) - Int.tdiv (N : Int) 2)))[N - 1 - i]? :=
    fun ft f1 f2 => map_range_mirror N _ (fun i hi => tapValue_mirror m hsin ft f1 f2 N i hodd hi)
  refine ⟨?_, ?_, ?_, ?_, ?_, ?_, ?_, ?_⟩
  · intro junk junkInt ft wt fmin fmax s0 hnew
    obtain ⟨sf, hinit, hr, -⟩ := init_new_ok m junk junkInt N hmax ft wt fmin fmax s0 hnew
    refine ⟨sf, _, hinit, hr.coeffs, hr.clen, ?_⟩
    exact map_range_mirror N _ (fun i hi => by
      rw [tapValue_mirror m hsin ft _ _ N i hodd hi, weightValue_mirror m hpi hcos wt N i hN2 hi])
  · intro f
    exact ⟨_, _, lowPassCoefficients_ok m a s N hmax ht hn cbuf hc hclen f, rfl, by simp,
      htap _ _ _⟩
  · intro f
    exact ⟨_, _, highPassCoefficients_ok m a s N hmax ht hn cbuf hc hclen f, rfl, by simp,
      htap _ _ _⟩
  · intro fmin fmax
    exact ⟨_, _, bandPassCoefficients_ok m a s N hmax ht hn cbuf hc hclen fmin fmax, rfl,
      by simp, htap _ _ _⟩
  · intro fmin fmax
    exact ⟨_, _, bandStopCoefficients_ok m a s N hmax ht hn cbuf hc hclen fmin fmax, rfl,
      by simp, htap _ _ _⟩
  · refine ⟨_, _, by unfold windowHamming; exact writeWindow_ok s N wbuf hw hwlen ht _ 0, rfl,
      by simp, ?_⟩
    have h := hwin windowType.HAMMING
    simp only [weightValue] at h
    simpa only [ht] using h
  · exact ⟨_, _, windowTriangle_ok m s N ht wbuf hw hwlen, rfl, by simp,
      hwin windowType.TRIANGLE⟩
  · refine ⟨_, _, by unfold windowBlackman; exact writeWindow_ok s N wbuf hw hwlen ht _ 0, rfl,
      by simp, ?_⟩
    have h := hwin windowType.BLACKMAN
    simp only [weightValue] at h
    simpa only [ht] using h

/-- Witness for C16: three taps, a band-stop filter with the Blackman window. -/
theorem linear_phase_symmetry_witness :
    ∃ sf coeff, init (⟨Real.pi, Real.sin, Real.cos⟩ : MathEnv ℝ)
        ⟨true, true, true, true, 9, 9⟩
        ({ p_Coefficients := none, p_Samples := none, p_Window := none,
           p_MinFrequency := 0, p_MaxFrequency := 0, p_Index := 0, p_Taps := 3,
           p_FilterType := filterType.BANDSTOP_FILTER,
           p_WindowType := windowType.BLACKMAN } : State ℝ)
        = some (ResultCodes.RESULT_SUCCESS, sf)
      ∧ getCoefficients sf = some coeff ∧ coeff.length = 3
      ∧ ∀ i : Nat, i < 3 → coeff[i]? = coeff[3 - 1 - i]? :=
  (linear_phase_symmetry (⟨Real.pi, Real.sin, Real.cos⟩ : MathEnv ℝ)
    ⟨true, true, true, true, 9, 9⟩
    ({ p_Coefficients := some [0, 0, 0], p_Samples := some [0, 0, 0],
       p_Window := some [0, 0, 0], p_MinFrequency := 0, p_MaxFrequency := 0,
       p_Index := 0, p_Taps := 3, p_FilterType := filterType.BANDSTOP_FILTER,
       p_WindowType := windowType.BLACKMAN } : State ℝ)
    3 [0, 0, 0] [0, 0, 0] rfl rfl rfl (by decide) (by decide) (by decide) rfl rfl rfl rfl rfl
    rfl).1 9 9 filterType.BANDSTOP_FILTER windowType.BLACKMAN 0 0 _
    (by unfold new; rw [floatToInt_zero]; rfl)

end Symmetry

section Ranges

/-- Multiplying by a positive weight keeps the sign. -/
theorem sign_kept (v : ℝ) (hv : 0 < v) (r : ℝ) :
    (0 < r * v ↔ 0 < r) ∧ (r * v < 0 ↔ r < 0) := by
  refine ⟨⟨fun h => ?_, fun h => mul_pos h hv⟩, ⟨fun h => ?_, fun h => ?_⟩⟩
  · by_contra hr
    have : r * v ≤ 0 := mul_nonpos_of_nonpos_of_nonneg (not_lt.mp hr) (le_of_lt hv)
    linarith
  · by_contra hr
    have : 0 ≤ r * v := mul_nonneg (not_lt.mp hr) (le_of_lt hv)
    linarith
  · exact mul_neg_of_neg_of_pos h hv

theorem last_cast (N : Nat) (hN : 2 ≤ N) :
    ((((N - 1 : Nat) : Int)) : ℝ) = (((N : Int) - 1 : Int) : ℝ) := by
  have : ((N - 1 : Nat) : Int) = (N : Int) - 1 := by omega
  rw [this]

theorem hamming_range (c : ℝ) (h1 : -1 ≤ c) (h2 : c ≤ 1) :
    (0.08 : ℝ) ≤ 0.54 - 0.46 * c ∧ 0.54 - 0.46 * c ≤ 1 := by
  constructor <;> linarith

/-- C17: over the reals with `mPI = π` and `cosf = cos`, for `N ≥ 2` taps every Hamming weight
lies in `[0.08, 1]`, the first and the last being `0.08`, and every Triangle weight lies in
`(0, 1]` (each one that `windowTriangle` writes is in fact `1`, its absolute value being
taken in `int`); both are positive, so multiplying a designed tap by the weight keeps its
sign. -/
theorem window_weight_ranges (m : MathEnv ℝ) (s : State ℝ) (N : Nat) (wbuf : List ℝ)
    (hpi : m.mPI = Real.pi) (hcos : m.cosf = Real.cos) (hN : 2 ≤ N) (hmax : N ≤ 2147483647)
    (ht : s.p_Taps = (N : Int)) (hw : s.p_Window = some wbuf) (hwlen : wbuf.length = N) :
    (∃ sw w, windowHamming m s = some sw ∧ sw.p_Window = some w ∧ w.length = N
        ∧ (∀ i : Nat, i < N → ∃ v, w[i]? = some v ∧ 0.08 ≤ v ∧ v ≤ 1
            ∧ ∀ r : ℝ, (0 < r * v ↔ 0 < r) ∧ (r * v < 0 ↔ r < 0))
        ∧ w[0]? = some (0.08 : ℝ) ∧ w[N - 1]? = some (0.08 : ℝ))
    ∧ (∃ sw w, windowTriangle s = some sw ∧ sw.p_Window = some w ∧ w.length = N
        ∧ (∀ i : Nat, i < N → ∃ v, w[i]? = some v ∧ 0 < v ∧ v ≤ 1 ∧ v = 1
            ∧ ∀ r : ℝ, (0 < r * v ↔ 0 < r) ∧ (r * v < 0 ↔ r < 0))) := by
  have _ := hmax
  have hd : (((N : Int) - 1 : Int) : ℝ) ≠ 0 := Int.cast_ne_zero.mpr (by omega)
  constructor
  · refine ⟨_, _, by unfold windowHamming; exact writeWindow_ok s N wbuf hw hwlen ht _ 0, rfl,
      by simp, ?_, ?_, ?_⟩
    · intro i hi
      refine ⟨_, getElem?_map_range N _ i hi, ?_⟩
      simp only [hcos]
      have hr := hamming_range _ (Real.neg_one_le_cos
        (2 * m.mPI * ((i : Int) : ℝ) / ((s.p_Taps - 1 : Int) : ℝ))) (Real.cos_le_one _)
      exact ⟨hr.1, hr.2, sign_kept _ (by linarith [hr.1])⟩
    · rw [getElem?_map_range N _ 0 (by omega)]
      simp only [hcos, Nat.cast_zero, Int.cast_zero, mul_zero, zero_div, Real.cos_zero]
      norm_num
    · rw [getElem?_map_range N _ (N - 1) (by omega)]
      simp only [hcos, hpi, ht, last_cast N hN, mul_div_assoc, div_self hd, mul_one,
        Real.cos_two_pi]
      norm_num
  · refine ⟨_, _, windowTriangle_ok m s N ht wbuf hw hwlen, rfl, by simp, ?_⟩
    intro i hi
    refine ⟨_, getElem?_map_range N _ i hi, ?_⟩
    rw [weightValue_triangle m N i hi]
    exact ⟨one_pos, le_refl 1, rfl, sign_kept 1 one_pos⟩

/-- Witness for C17: three taps over the reals. -/
theorem window_weight_ranges_witness :
    (∃ sw w, windowHamming (⟨Real.pi, Real.sin, Real.cos⟩ : MathEnv ℝ)
        ({ p_Coefficients := some [0, 0, 0], p_Samples := some [0, 0, 0],
           p_Window := some [0, 0, 0], p_MinFrequency := 0, p_MaxFrequency := 0,
           p_Index := 0, p_Taps := 3, p_FilterType := filterType.LOWPASS_FILTER,
           p_WindowType := windowType.HAMMING } : State ℝ) = some sw
      ∧ sw.p_Window = some w ∧ w.length = 3
      ∧ (∀ i : Nat, i < 3 → ∃ v, w[i]? = some v ∧ 0.08 ≤ v ∧ v ≤ 1
          ∧ ∀ r : ℝ, (0 < r * v ↔ 0 < r) ∧ (r * v < 0 ↔ r < 0))
      ∧ w[0]? = some (0.08 : ℝ) ∧ w[3 - 1]? = some (0.08 : ℝ))
    ∧ (∃ sw w, windowTriangle
        ({ p_Coefficients := some [0, 0, 0], p_Samples := some [0, 0, 0],
           p_Window := some [0, 0, 0], p_MinFrequency := 0, p_MaxFrequency := 0,
           p_Index := 0, p_Taps := 3, p_FilterType := filterType.LOWPASS_FILTER,
           p_WindowType := windowType.HAMMING } : State ℝ) = some sw
      ∧ sw.p_Window = some w ∧ w.length = 3
      ∧ (∀ i : Nat, i < 3 → ∃ v, w[i]? = some v ∧ 0 < v ∧ v ≤ 1 ∧ v = 1
          ∧ ∀ r : ℝ, (0 < r * v ↔ 0 < r) ∧ (r * v < 0 ↔ r < 0))) :=
  window_weight_ranges (⟨Real.pi, Real.sin, Real.cos⟩ : MathEnv ℝ) _ 3 [0, 0, 0] rfl rfl
    (by decide) (by decide) rfl rfl rfl

theorem blackman_range (c : ℝ) (h1 : -1 ≤ c) (h2 : c ≤ 1) :
    (-0.16 : ℝ) ≤ 0.42 - 0.5 * c - 0.08 * (2 * c ^ 2 - 1)
      ∧ 0.42 - 0.5 * c - 0.08 * (2 * c ^ 2 - 1) ≤ 0.84 := by
  constructor <;> nlinarith [mul_nonneg (sub_nonneg.mpr h2) (by linarith : (0 : ℝ) ≤ 1 + c)]

theorem mid_angle_two (d : ℝ) (hd : d ≠ 0) : 2 * Real.pi * (d / 2) / d = Real.pi := by
  field_simp
  ring

theorem mid_angle_four (d : ℝ) (hd : d ≠ 0) : 4 * Real.pi * (d / 2) / d = 2 * Real.pi := by
  field_simp
  ring

theorem double_angle (p x d : ℝ) : 4 * p * x / d = 2 * (2 * p * x / d) := by ring

/-- C18: over the reals with `mPI = π` and `cosf = cos`, for `N ≥ 2` taps the first and the
last Blackman weight are `0.42 - 0.5 - 0.08 = -0.16`; for odd `N` the centre weight is
`0.42 + 0.5 - 0.08 = 0.84`; every weight lies in `[-0.16, 0.84]`, so none is `1` and the
window is not confined to `[0, 1]`. -/
theorem blackman_end_weights (m : MathEnv ℝ) (s : State ℝ) (N : Nat) (wbuf : List ℝ)
    (hpi : m.mPI = Real.pi) (hcos : m.cosf = Real.cos) (hN : 2 ≤ N) (hmax : N ≤ 2147483647)
    (ht : s.p_Taps = (N : Int)) (hw : s.p_Window = some wbuf) (hwlen : wbuf.length = N) :
    ∃ sw w, windowBlackman m s = some sw ∧ sw.p_Window = some w ∧ w.length = N
      ∧ w[0]? = some (0.42 - 0.5 - 0.08 : ℝ) ∧ w[0]? = some (-0.16 : ℝ)
      ∧ w[N - 1]? = some (-0.16 : ℝ)
      ∧ (N % 2 = 1 → w[(N - 1) / 2]? = some (0.42 + 0.5 - 0.08 : ℝ)
          ∧ w[(N - 1) / 2]? = some (0.84 : ℝ))
      ∧ (∀ i : Nat, i < N → ∃ v, w[i]? = some v ∧ -0.16 ≤ v ∧ v ≤ 0.84 ∧ v ≠ 1)
      ∧ ¬ (∀ i : Nat, i < N → ∃ v, w[i]? = some v ∧ 0 ≤ v ∧ v ≤ 1) := by
  have _ := hmax
  have hd : (((N : Int) - 1 : Int) : ℝ) ≠ 0 := Int.cast_ne_zero.mpr (by omega)
  have h0 : ((List.range N).map (fun (i : Nat) =>
      (0.42 : ℝ) - 0.5 * m.cosf (2 * m.mPI * ((i : Int) : ℝ) / ((s.p_Taps - 1 : Int) : ℝ))
        - 0.08 * m.cosf (4 * m.mPI * ((i : Int) : ℝ) / ((s.p_Taps - 1 : Int) : ℝ))))[0]?
      = some (-0.16 : ℝ) := by
    rw [getElem?_map_range N _ 0 (by omega)]
    simp only [hcos, Nat.cast_zero, Int.cast_zero, mul_zero, zero_div, Real.cos_zero]
    norm_num
  refine ⟨_, _, by unfold windowBlackman; exact writeWindow_ok s N wbuf hw hwlen ht _ 0, rfl,
    by simp, ?_, h0, ?_, ?_, ?_, ?_⟩
  · rw [h0]; norm_num
  · rw [getElem?_map_range N _ (N - 1) (by omega)]
    have e4 : 4 * Real.pi = ((2 : Nat) : ℝ) * (2 * Real.pi) := by push_cast; ring
    simp only [hcos, hpi, ht, last_cast N hN, mul_div_assoc, div_self hd, mul_one,
      Real.cos_two_pi, e4, Real.cos_nat_mul_two_pi]
    norm_num
  · intro hodd
    have hmid : ((((N - 1) / 2 : Nat) : Int) : ℝ) = (((N : Int) - 1 : Int) : ℝ) / 2 := by
      have h2 : (((N - 1) / 2 : Nat) : Int) * 2 = (N : Int) - 1 := by omega
      have h3 : ((((N - 1) / 2 : Nat) : Int) : ℝ) * 2 = (((N : Int) - 1 : Int) : ℝ) := by
        exact_mod_cast h2
      linarith
    have a2 := mid_angle_two _ hd
    have a4 := mid_angle_four _ hd
    have hv : ((List.range N).map (fun (i : Nat) =>
        (0.42 : ℝ) - 0.5 * m.cosf (2 * m.mPI * ((i : Int) : ℝ) / ((s.p_Taps - 1 : Int) : ℝ))
          - 0.08 * m.cosf (4 * m.mPI * ((i : Int) : ℝ) / ((s.p_Taps - 1 : Int) : ℝ))))[(N - 1) / 2]?
        = some (0.84 : ℝ) := by
      rw [getElem?_map_range N _ ((N - 1) / 2) (by omega)]
      simp only [hcos, hpi, ht, hmid, a2, a4, Real.cos_pi, Real.cos_two_pi]
      norm_num
    exact ⟨by rw [hv]; norm_num, hv⟩
  · intro i hi
    refine ⟨_, getElem?_map_range N _ i hi, ?_⟩
    simp only [hcos]
    rw [double_angle, Real.cos_two_mul]
    have hr := blackman_range _ (Real.neg_one_le_cos
      (2 * m.mPI * ((i : Int) : ℝ) / ((s.p_Taps - 1 : Int) : ℝ))) (Real.cos_le_one _)
    refine ⟨hr.1, hr.2, ?_⟩
    intro h1
    rw [h1] at hr
    norm_num at hr
  · intro hall
    obtain ⟨v, hv, hv0, _⟩ := hall 0 (by omega)
    rw [h0] at hv
    have : v = -0.16 := (Option.some.inj hv).symm
    rw [this] at hv0
    norm_num at hv0

/-- Witness for C18: three taps over the reals. -/
theorem blackman_end_weights_witness :
    ∃ sw w, windowBlackman (⟨Real.pi, Real.sin, Real.cos⟩ : MathEnv ℝ)
        ({ p_Coefficients := some [0, 0, 0], p_Samples := some [0, 0, 0],
           p_Window := some [0, 0, 0], p_MinFrequency := 0, p_MaxFrequency := 0,
           p_Index := 0, p_Taps := 3, p_FilterType := filterType.LOWPASS_FILTER,
           p_WindowType := windowType.BLACKMAN } : State ℝ) = some sw
      ∧ sw.p_Window = some w ∧ w.length = 3
      ∧ w[0]? = some (0.42 - 0.5 - 0.08 : ℝ) ∧ w[0]? = some (-0.16 : ℝ)
      ∧ w[3 - 1]? = some (-0.16 : ℝ)
      ∧ (3 % 2 = 1 → w[(3 - 1) / 2]? = some (0.42 + 0.5 - 0.08 : ℝ)
          ∧ w[(3 - 1) / 2]? = some (0.84 : ℝ))
      ∧ (∀ i : Nat, i < 3 → ∃ v, w[i]? = some v ∧ -0.16 ≤ v ∧ v ≤ 0.84 ∧ v ≠ 1)
      ∧ ¬ (∀ i : Nat, i < 3 → ∃ v, w[i]? = some v ∧ 0 ≤ v ∧ v ≤ 1) :=
  blackman_end_weights (⟨Real.pi, Real.sin, Real.cos⟩ : MathEnv ℝ) _ 3 [0, 0, 0] rfl rfl
    (by decide) (by decide) rfl rfl rfl

end Ranges

end CFIR
